import Mathlib

/-!
Verification development for the journal-extraction pipeline.

Shallow embedding of the reconciliation pipeline (`src/extract.py`), the
schema validation model (`src/schema.py`), the interview answer parsing
(`src/app.py` / `src/main.py` with the field-type table of
`src/validate.py`).

Modelling conventions:
* Generator output (decoded JSON) is modelled by the inductive `J2D.JVal`;
  Python floats are modelled as exact rationals (`ℚ`).  A Python `dict` is
  an association list `J2D.JObj` (keys unique in any dict produced by
  `json.loads`; the operations below extend the Python semantics
  consistently to lists with duplicate keys).
* `None` in a Python dict is `JVal.jnull`; an *absent key* is a missing
  association, which matters for `dict.setdefault`.
* String operations (`lower`, `strip`, ...) are re-implemented over
  `String.data` so that everything kernel-reduces; they implement the
  ASCII fragment of the Python semantics (all strings appearing in the
  pipeline's fixed tables are ASCII).
* The regular expressions of the known-food table use only literals,
  `\b`, `\s+`, `\s*`, `.*` and the two-character class `[- ]`; the engine
  `J2D.reSearch` implements exactly this fragment of `re.search` with
  `re.IGNORECASE` obtained by lowercasing (the patterns are lowercase).
-/

attribute [local semireducible] Rat.add Rat.mul Rat.inv Rat.sub Rat.ofScientific

namespace J2D

/-- Decoded JSON / loosely-typed Python value as returned by the generator.
Floats are modelled as exact rationals. -/
inductive JVal where
  | jnull
  | jbool (b : Bool)
  | jint (n : Int)
  | jfloat (q : ℚ)
  | jstr (s : String)
  | jarr (xs : List JVal)
  | jobj (kvs : List (String × JVal))

/-- Python dict holding decoded JSON values. -/
abbrev JObj := List (String × JVal)

/-- Key lookup (`d[k]` / `k in d`): first matching association. -/
def jget (o : JObj) (k : String) : Option JVal :=
  (o.find? (fun kv => kv.1 = k)).map (fun kv => kv.2)

/-- Python `d.get(k, default)` where the stored value is returned even if null. -/
def getOr (o : JObj) (k : String) (d : JVal) : JVal :=
  (jget o k).getD d

/-- Python `d[k] = v`: replace the binding in place, else append. -/
def jset (o : JObj) (k : String) (v : JVal) : JObj :=
  if (jget o k).isSome then
    o.map (fun kv => if kv.1 = k then (k, v) else kv)
  else o ++ [(k, v)]

/-- Python `d.setdefault(k, v)`: insert only when the key is absent. -/
def jsetdefault (o : JObj) (k : String) (v : JVal) : JObj :=
  match jget o k with
  | some _ => o
  | none => o ++ [(k, v)]

/-! String helpers (ASCII fragment of the Python behaviour), implemented
over `String.data` so they reduce in the kernel. -/

/-- Whitespace recognised by Python `str.strip` / `\s` (ASCII part). -/
def isSpaceChar (c : Char) : Bool :=
  c = ' ' || c = '\t' || c = '\n' || c = '\r' || c = '\x0b' || c = '\x0c'

/-- ASCII lower-casing of one character. -/
def lowerChar (c : Char) : Char :=
  if 65 ≤ c.toNat ∧ c.toNat ≤ 90 then Char.ofNat (c.toNat + 32) else c

/-- Python `str.lower()` (ASCII fragment). -/
def strLower (s : String) : String := ⟨s.data.map lowerChar⟩

/-- Python `str.strip()` (ASCII whitespace). -/
def strTrim (s : String) : String :=
  ⟨((s.data.dropWhile isSpaceChar).reverse.dropWhile isSpaceChar).reverse⟩

/-- Python `sub in s` substring containment. -/
def containsSub (s sub : String) : Bool :=
  go s.data
where
  go : List Char → Bool
    | [] => sub.data.isPrefixOf []
    | c :: cs => sub.data.isPrefixOf (c :: cs) || go cs

/-- Python code-point comparison `a < b` on strings. -/
def charListLt : List Char → List Char → Bool
  | [], [] => false
  | [], _ :: _ => true
  | _ :: _, [] => false
  | a :: as, b :: bs =>
    if a.toNat < b.toNat then true
    else if b.toNat < a.toNat then false
    else charListLt as bs

/-- Python `a < b` on strings. -/
def strLt (a b : String) : Bool := charListLt a.data b.data

/-! Python numeric coercions used by `_safe_int` / `_safe_float` and the
interview parser. -/

/-- Numeric value of a list of ASCII digits. -/
def digitsVal (cs : List Char) : Nat :=
  cs.foldl (fun a c => a * 10 + (c.toNat - 48)) 0

/-- Exponent suffix of a Python float literal: optional sign then digits,
consuming the whole remainder. -/
def parseExpPart (cs : List Char) : Option Int :=
  let (sign, cs) :=
    match cs with
    | '-' :: r => ((-1 : Int), r)
    | '+' :: r => ((1 : Int), r)
    | _ => ((1 : Int), cs)
  let ds := cs.takeWhile Char.isDigit
  if ds.isEmpty || !(cs.dropWhile Char.isDigit).isEmpty then none
  else some (sign * (digitsVal ds : Int))

/-- Python `float(s)` on a string: strip, optional sign, decimal digits with
optional fraction and exponent.  (`inf`/`nan` and digit underscores are not
modelled; the pipeline never relies on them.) -/
def pyFloatOfString (s : String) : Option ℚ :=
  let cs := (strTrim s).data
  let (sign, cs) :=
    match cs with
    | '-' :: r => ((-1 : ℚ), r)
    | '+' :: r => ((1 : ℚ), r)
    | _ => ((1 : ℚ), cs)
  let intPart := cs.takeWhile Char.isDigit
  let rest := cs.dropWhile Char.isDigit
  match rest with
  | [] =>
    if intPart.isEmpty then none else some (sign * (digitsVal intPart : ℚ))
  | '.' :: rest2 =>
    let fracPart := rest2.takeWhile Char.isDigit
    let rest3 := rest2.dropWhile Char.isDigit
    if intPart.isEmpty && fracPart.isEmpty then none
    else
      let base : ℚ :=
        (digitsVal intPart : ℚ) + (digitsVal fracPart : ℚ) / ((10 : ℚ) ^ fracPart.length)
      match rest3 with
      | [] => some (sign * base)
      | e :: rest4 =>
        if e = 'e' || e = 'E' then
          (parseExpPart rest4).map (fun ex => sign * base * (10 : ℚ) ^ ex)
        else none
  | e :: rest2 =>
    if (e = 'e' || e = 'E') && !intPart.isEmpty then
      (parseExpPart rest2).map (fun ex => sign * (digitsVal intPart : ℚ) * (10 : ℚ) ^ ex)
    else none

/-- Python `round(q)` on a float: round half to even. -/
def pythonRound (q : ℚ) : ℤ :=
  let f := ⌊q⌋
  let frac := q - (f : ℚ)
  if frac < 1 / 2 then f
  else if 1 / 2 < frac then f + 1
  else if f % 2 = 0 then f else f + 1

/-- Python `int(q)` on a float: truncation toward zero. -/
def pyTrunc (q : ℚ) : ℤ := if 0 ≤ q then ⌊q⌋ else ⌈q⌉

/-- Python `float(x)` on an arbitrary value; `none` models a raised error. -/
def pyFloat : JVal → Option ℚ
  | .jnull => none
  | .jbool b => some (if b then 1 else 0)
  | .jint n => some (n : ℚ)
  | .jfloat q => some q
  | .jstr s => pyFloatOfString s
  | .jarr _ => none
  | .jobj _ => none

/-- Model of `_safe_int` (src/extract.py:201): `int(round(float(x)))`,
`None`/failure giving `None`. -/
def safe_int (x : JVal) : Option Int :=
  match x with
  | .jnull => none
  | v => (pyFloat v).map pythonRound

/-- Model of `_safe_float` (src/extract.py:210). -/
def safe_float (x : JVal) : Option ℚ :=
  match x with
  | .jnull => none
  | v => pyFloat v

/-- Comma-join used by the repr approximation. -/
def joinCommaStr : List String → String
  | [] => ""
  | [x] => x
  | x :: xs => x ++ ", " ++ joinCommaStr xs

mutual

/-- Python `str(x)` (flag `false`) and element `repr(x)` (flag `true`, as
inside containers, where strings are quoted).  Float repr is approximated;
the pipeline only relies on `str` of strings, `None`, booleans and
integers, and on (non-)emptiness for containers. -/
def pyStrM : Bool → JVal → String
  | _, .jnull => "None"
  | _, .jbool true => "True"
  | _, .jbool false => "False"
  | _, .jint n => toString n
  | _, .jfloat q => if q.den = 1 then toString q.num ++ ".0" else toString q
  | rep, .jstr s => if rep then "'" ++ s ++ "'" else s
  | _, .jarr xs => "[" ++ joinCommaStr (pyStrList xs) ++ "]"
  | _, .jobj kvs => "\x7b" ++ joinCommaStr (pyStrPairs kvs) ++ "\x7d"

/-- Repr of the elements of a list value. -/
def pyStrList : List JVal → List String
  | [] => []
  | x :: xs => pyStrM true x :: pyStrList xs

/-- Repr of the entries of a dict value. -/
def pyStrPairs : List (String × JVal) → List String
  | [] => []
  | kv :: kvs => ("'" ++ kv.1 ++ "': " ++ pyStrM true kv.2) :: pyStrPairs kvs

end

/-- Python `str(x)`. -/
def pyStr (v : JVal) : String := pyStrM false v

/-! Regular-expression engine for the known-food patterns: literals, word
boundary, `\s+`, `\s*`, `.*` (no newline) and a character class. -/

/-- Token of the regular-expression subset used by `KNOWN_FOODS`. -/
inductive RTok where
  | lit (c : Char)
  | wb
  | ws1
  | ws0
  | any0
  | cls (cs : List Char)

/-- Word character for `\b` (ASCII `\w`). -/
def isWordChar (c : Char) : Bool := c.isAlphanum || c = '_'

/-- Match the token list against a prefix of the character list; `prev` is
the character before the current position (for `\b`).  The fuel dominates
`toks.length + chars.length`, which strictly decreases at each step. -/
def reMatch : Nat → List RTok → Option Char → List Char → Bool
  | 0, _, _, _ => false
  | _ + 1, [], _, _ => true
  | fuel + 1, t :: ts, prev, cs =>
    match t with
    | .wb =>
      let atB :=
        match prev, cs with
        | none, [] => false
        | none, c :: _ => isWordChar c
        | some p, [] => isWordChar p
        | some p, c :: _ => isWordChar p != isWordChar c
      atB && reMatch fuel ts prev cs
    | .lit c =>
      match cs with
      | [] => false
      | x :: xs => x = c && reMatch fuel ts (some x) xs
    | .cls l =>
      match cs with
      | [] => false
      | x :: xs => l.contains x && reMatch fuel ts (some x) xs
    | .ws1 =>
      match cs with
      | [] => false
      | x :: xs => isSpaceChar x && reMatch fuel (.ws0 :: ts) (some x) xs
    | .ws0 =>
      match cs with
      | [] => reMatch fuel ts prev []
      | x :: xs =>
        reMatch fuel ts prev (x :: xs) || (isSpaceChar x && reMatch fuel (.ws0 :: ts) (some x) xs)
    | .any0 =>
      match cs with
      | [] => reMatch fuel ts prev []
      | x :: xs =>
        reMatch fuel ts prev (x :: xs) || (x ≠ '\n' && reMatch fuel (.any0 :: ts) (some x) xs)

/-- Try to match at every position in turn (Python `re.search`). -/
def reSearchAux : Nat → List RTok → Option Char → List Char → Bool
  | 0, _, _, _ => false
  | fuel + 1, ts, prev, cs =>
    reMatch (ts.length + cs.length + 1) ts prev cs ||
      match cs with
      | [] => false
      | x :: xs => reSearchAux fuel ts (some x) xs

/-- Python `re.search(pattern, s) is not None`. -/
def reSearch (ts : List RTok) (s : String) : Bool :=
  reSearchAux (s.data.length + 1) ts none s.data

/-- Literal characters of a pattern. -/
def lits (s : String) : List RTok := s.data.map RTok.lit

/-- Word boundary `\b`. -/
def wb : List RTok := [RTok.wb]

/-- One entry of the known-food table (src/extract.py:127). -/
structure KnownFood where
  known_name : String
  patterns : List (List RTok)
  cal : Int
  protein : Int

/-- The known-food table `KNOWN_FOODS` (src/extract.py:127-198); each
pattern transcribes the Python regular expression. -/
def KNOWN_FOODS : List KnownFood :=
  [ { known_name := "cafe_1919_personal_goat_cheese_sundried_tomato_pizza"
      patterns :=
        [ wb ++ lits "goat" ++ [RTok.ws1] ++ lits "cheese" ++ wb ++ [RTok.any0] ++
            wb ++ lits "sun" ++ [RTok.cls ['-', ' ']] ++ lits "dried" ++ [RTok.ws1] ++
            lits "tomato" ++ wb ++ [RTok.any0] ++ wb ++ lits "pizza" ++ wb,
          wb ++ lits "sun" ++ [RTok.cls ['-', ' ']] ++ lits "dried" ++ [RTok.ws1] ++
            lits "tomato" ++ wb ++ [RTok.any0] ++ wb ++ lits "goat" ++ [RTok.ws1] ++
            lits "cheese" ++ wb ++ [RTok.any0] ++ wb ++ lits "pizza" ++ wb,
          wb ++ lits "cafe" ++ [RTok.ws0] ++ lits "1919" ++ wb ++ [RTok.any0] ++
            wb ++ lits "pizza" ++ wb ]
      cal := 600, protein := 20 },
    { known_name := "built_protein_bar"
      patterns :=
        [ wb ++ lits "built" ++ [RTok.ws1] ++ lits "protein" ++ [RTok.ws1] ++ lits "bar" ++ wb,
          wb ++ lits "built" ++ [RTok.ws1] ++ lits "bar" ++ wb,
          wb ++ lits "built" ++ [RTok.ws1] ++ lits "puff" ++ wb ]
      cal := 140, protein := 17 },
    { known_name := "fairlife_core_power_shake"
      patterns :=
        [ wb ++ lits "core" ++ [RTok.ws0] ++ lits "power" ++ wb,
          wb ++ lits "fair" ++ [RTok.ws0] ++ lits "life" ++ wb,
          wb ++ lits "fairlife" ++ wb ]
      cal := 230, protein := 42 },
    { known_name := "quest_protein_bar"
      patterns :=
        [ wb ++ lits "quest" ++ [RTok.ws1] ++ lits "bar" ++ wb,
          wb ++ lits "quest" ++ [RTok.ws1] ++ lits "protein" ++ [RTok.ws1] ++ lits "bar" ++ wb ]
      cal := 190, protein := 21 },
    { known_name := "premier_protein_shake"
      patterns :=
        [ wb ++ lits "premier" ++ [RTok.ws1] ++ lits "protein" ++ wb,
          wb ++ lits "premier" ++ [RTok.ws1] ++ lits "shake" ++ wb ]
      cal := 160, protein := 30 },
    { known_name := "rxbar"
      patterns :=
        [ wb ++ lits "rx" ++ [RTok.ws0] ++ lits "bar" ++ wb,
          wb ++ lits "rxbar" ++ wb ]
      cal := 210, protein := 12 },
    { known_name := "chobani_plain_greek_yogurt_nonfat"
      patterns :=
        [ wb ++ lits "chobani" ++ wb ++ [RTok.any0] ++ wb ++ lits "greek" ++ wb,
          wb ++ lits "chobani" ++ wb ++ [RTok.any0] ++ wb ++ lits "yogurt" ++ wb ]
      cal := 90, protein := 17 },
    { known_name := "oikos_pro_greek_yogurt"
      patterns :=
        [ wb ++ lits "oikos" ++ [RTok.ws1] ++ lits "pro" ++ wb,
          wb ++ lits "oikos" ++ wb ++ [RTok.any0] ++ wb ++ lits "yogurt" ++ wb ]
      cal := 130, protein := 20 },
    { known_name := "isopure_zero_carb_protein_shake"
      patterns := [ wb ++ lits "isopure" ++ wb ]
      cal := 160, protein := 40 },
    { known_name := "muscle_milk_pro_series"
      patterns := [ wb ++ lits "muscle" ++ [RTok.ws1] ++ lits "milk" ++ wb ]
      cal := 280, protein := 40 },
    { known_name := "kodiak_cakes_protein_waffle"
      patterns :=
        [ wb ++ lits "kodiak" ++ wb ++ [RTok.any0] ++ wb ++ lits "waffle" ++ wb,
          wb ++ lits "kodiak" ++ wb ++ [RTok.any0] ++ wb ++ lits "pancake" ++ wb ]
      cal := 250, protein := 14 } ]

/-- Result of a known-food match (src/extract.py:261). -/
structure KnownMatch where
  calories : Int
  protein_g : Int
  known_name : String
deriving DecidableEq

/-- Model of `match_known_food_by_name` (src/extract.py:253): match the
item's name only, first table entry with a matching pattern wins. -/
def match_known_food_by_name (food_name : String) : Option KnownMatch :=
  let fname := strLower food_name
  (KNOWN_FOODS.find? (fun item => item.patterns.any (fun p => reSearch p fname))).map
    (fun item => ⟨item.cal, item.protein, item.known_name⟩)

/-- Normalized food item as produced by `normalize_foods`; the optional
`source` / `matched_known` keys are only added by the override step. -/
structure Food where
  name : String
  quantity_text : String
  calories : Option Int
  protein_g : Option Int
  confidence : ℚ
  source : Option String := none
  matched_known : Option String := none
deriving DecidableEq

/-- Model of `normalize_foods` (src/extract.py:233): keep dict entries with
a non-empty stripped name, coerce macros with `_safe_int`, default
confidence 0.7. -/
def normalize_foods (v : JVal) : List Food :=
  match v with
  | .jarr fs =>
    fs.filterMap (fun f =>
      match f with
      | .jobj o =>
        let name := strTrim (pyStr (getOr o "name" (.jstr "")))
        if name = "" then none
        else
          some { name
                 quantity_text := strTrim (pyStr (getOr o "quantity_text" (.jstr "")))
                 calories := safe_int (getOr o "calories" .jnull)
                 protein_g := safe_int (getOr o "protein_g" .jnull)
                 confidence := (safe_float (getOr o "confidence" .jnull)).getD (7 / 10) }
      | _ => none)
  | _ => []

/-- Override condition of `apply_known_overrides` (src/extract.py:276):
value absent, or off by at least 80 calories or 10 grams of protein. -/
def shouldOverride (f : Food) (kc kp : Int) : Bool :=
  match f.calories, f.protein_g with
  | some c, some p => 80 ≤ (c - kc).natAbs || 10 ≤ (p - kp).natAbs
  | _, _ => true

/-- Per-item step of `apply_known_overrides`: the new item and, when the
override fired, the known name recorded for the consolidated signal. -/
def overrideItem (f : Food) : Food × Option String :=
  match match_known_food_by_name f.name with
  | some known =>
    if shouldOverride f known.calories known.protein_g then
      ({ f with calories := some known.calories
                protein_g := some known.protein_g
                confidence := max f.confidence (19 / 20)
                source := some "known_food"
                matched_known := some known.known_name },
       some known.known_name)
    else ({ f with source := some (f.source.getD "model_estimate") }, none)
  | none => ({ f with source := some (f.source.getD "model_estimate") }, none)

/-- Insert into a strictly sorted deduplicated list (Python `sorted(set(x))`). -/
def insertSortedDedup (s : String) : List String → List String
  | [] => [s]
  | x :: xs =>
    if s = x then x :: xs
    else if strLt s x then s :: x :: xs
    else x :: insertSortedDedup s xs

/-- Python `sorted(set(l))` for strings. -/
def sortedDedup (l : List String) : List String := l.foldr insertSortedDedup []

/-- Comma-join (Python `", ".join`). -/
def joinCommaSp : List String → String
  | [] => ""
  | [x] => x
  | x :: xs => x ++ ", " ++ joinCommaSp xs

/-- The consolidated override signal (src/extract.py:300-308). -/
def overrideSignal (names : List String) : JVal :=
  .jobj [("key", .jstr "known_food_overrides"),
         ("value", .jstr ("Overrode macros for: " ++ joinCommaSp (sortedDedup names))),
         ("unit", .jstr ""),
         ("source", .jstr "heuristic"),
         ("confidence", .jfloat (19 / 20))]

/-- Model of `apply_known_overrides` (src/extract.py:265): per-item override
plus one consolidated signal appended when anything was overridden.  The
Python function mutates `raw["signals"]`; here the signal stream is passed
and returned explicitly. -/
def apply_known_overrides (foods : List Food) (signals : List JVal) :
    List Food × List JVal :=
  let results := foods.map overrideItem
  let final := results.map (fun r => r.1)
  let overridden := results.filterMap (fun r => r.2)
  if overridden.isEmpty then (final, signals)
  else (final, signals ++ [overrideSignal overridden])

/-- Model of `sum_food_macros` (src/extract.py:312): totals and count over
items where both macros are present integers. -/
def sum_food_macros (foods : List Food) : Int × Int × Nat :=
  foods.foldl
    (fun acc f =>
      match f.calories, f.protein_g with
      | some c, some p => (acc.1 + c, acc.2.1 + p, acc.2.2 + 1)
      | _, _ => acc)
    (0, 0, 0)

/-- The (calories, protein) pairs of items where both are present integers
(src/extract.py:330). -/
def sanityPairs (foods : List Food) : List (Int × Int) :=
  foods.filterMap (fun f =>
    match f.calories, f.protein_g with
    | some c, some p => some (c, p)
    | _, _ => none)

/-- Model of `sanity_bad_uniform_macros` (src/extract.py:326): at least 4
complete items and some pair occurring at least 4 times (the count of
`Counter.most_common(1)`). -/
def sanity_bad_uniform_macros (foods : List Food) : Bool :=
  let pairs := sanityPairs foods
  if pairs.length < 4 then false
  else 4 ≤ (pairs.map (fun p => pairs.count p)).foldr max 0

/-- The fixed screen-time phrases (src/extract.py:219-230). -/
def screenPhrases : List String :=
  ["screen time", "screentime", "phone time", "time on my phone", "hours on my phone"]

/-- Model of `mentioned_screen_time` (src/extract.py:219): case-insensitive
substring containment of any fixed phrase. -/
def mentioned_screen_time (entry : String) : Bool :=
  let t := strLower entry
  screenPhrases.any (fun p => containsSub t p)

/-! Signal-stream handling of `extract` (src/extract.py:414-424, 464-483,
495-519).  Until the final cleaning, signals are raw `JVal`s. -/

/-- Normalization of a raw `signals` field (src/extract.py:415-424 and
464-473): a dict becomes one signal per entry, a list is kept, anything
else becomes empty. -/
def normSignalsField (v : Option JVal) : List JVal :=
  match v with
  | none => []
  | some .jnull => []
  | some (.jobj kvs) =>
    kvs.map (fun kv =>
      .jobj [("key", .jstr kv.1), ("value", .jstr (pyStr kv.2)), ("unit", .jstr ""),
             ("source", .jstr "journal"), ("confidence", .jfloat (3 / 5))])
  | some (.jarr xs) => xs
  | some _ => []

/-- The re-ask audit signal (src/extract.py:475-483). -/
def sanityRerunSignal : JVal :=
  .jobj [("key", .jstr "sanity_rerun"),
         ("value", .jstr "Re-asked GPT due to uniform macros across foods."),
         ("unit", .jstr ""), ("source", .jstr "code"), ("confidence", .jfloat (9 / 10))]

/-- The computed-totals audit signal (src/extract.py:496-504). -/
def totalsSignal (counted : Nat) (tc tp : Int) : JVal :=
  .jobj [("key", .jstr "macro_totals_computed"),
         ("value", .jstr ("Summed " ++ toString counted ++ " food items: " ++
            toString tc ++ " cal, " ++ toString tp ++ "g protein.")),
         ("unit", .jstr ""), ("source", .jstr "code"), ("confidence", .jfloat (19 / 20))]

/-- Per-signal cleaning (src/extract.py:507-519): drop non-dicts, default
the meta keys, drop a null value, stringify the value. -/
def cleanSignal (s : JVal) : Option JObj :=
  match s with
  | .jobj o =>
    let o := jsetdefault o "key" (.jstr "unknown")
    let o := jsetdefault o "unit" (.jstr "")
    let o := jsetdefault o "source" (.jstr "journal")
    let o := jsetdefault o "confidence" (.jfloat (7 / 10))
    match getOr o "value" (.jstr "") with
    | .jnull => none
    | v => some (jset o "value" (.jstr (pyStr v)))
  | _ => none

/-! Model of the pydantic `Extraction` schema (src/schema.py) applied by
`Extraction.model_validate`: per-field lax coercion followed by the
declared field validators.  `none` at the outer level models a raised
`ValidationError`. -/

/-- Validated signal (src/schema.py:10-15). -/
structure Signal where
  key : String
  value : String
  unit : Option String
  source : String
  confidence : ℚ
deriving DecidableEq

/-- Validated food item (src/schema.py:18-24); pydantic drops the extra
`matched_known` key and defaults a missing `source`. -/
structure FoodItem where
  name : String
  quantity_text : String
  calories : Option Int
  protein_g : Option Int
  confidence : ℚ
  source : String
deriving DecidableEq

/-- Validated record (src/schema.py:27-59).  `sleep_quality_1_10` is a
rational because the shared 1-10 validator returns `float(v)`. -/
structure Record where
  date : Option String
  summary : Option String
  wake_time : Option String
  sleep_hours : Option ℚ
  sleep_quality_1_10 : Option ℚ
  gym : Option Bool
  workout_type : Option String
  workout_minutes : Option Int
  cardio_minutes : Option Int
  water_bottles : Option Int
  creatine : Option Bool
  screen_time_hours : Option ℚ
  study_hours : Option ℚ
  weight : Option ℚ
  foods : List FoodItem
  calories_est : Option Int
  protein_est : Option Int
  mood_1_10 : Option ℚ
  signals : List Signal
deriving DecidableEq

/-- Pydantic lax coercion of an integer-string. -/
def pyIntOfString (s : String) : Option Int :=
  let cs := (strTrim s).data
  let (sign, cs) :=
    match cs with
    | '-' :: r => ((-1 : Int), r)
    | '+' :: r => ((1 : Int), r)
    | _ => ((1 : Int), cs)
  if cs.isEmpty || !cs.all Char.isDigit then none
  else some (sign * (digitsVal cs : Int))

/-- Pydantic lax `Optional[str]`. -/
def pdOptStr : JVal → Option (Option String)
  | .jnull => some none
  | .jstr s => some (some s)
  | _ => none

/-- Pydantic lax `int` (non-null part). -/
def pdInt : JVal → Option Int
  | .jint n => some n
  | .jfloat q => if q.den = 1 then some q.num else none
  | .jstr s => pyIntOfString s
  | _ => none

/-- Pydantic lax `float` (non-null part). -/
def pdFloatV : JVal → Option ℚ
  | .jint n => some (n : ℚ)
  | .jfloat q => some q
  | .jstr s => pyFloatOfString s
  | _ => none

/-- Pydantic lax `bool` (non-null part). -/
def pdBool : JVal → Option Bool
  | .jbool b => some b
  | .jint n => if n = 0 then some false else if n = 1 then some true else none
  | .jfloat q => if q = 0 then some false else if q = 1 then some true else none
  | .jstr s =>
    let t := strLower s
    if t = "true" || t = "t" || t = "yes" || t = "y" || t = "on" || t = "1" then some true
    else if t = "false" || t = "f" || t = "no" || t = "n" || t = "off" || t = "0" then some false
    else none
  | _ => none

/-- Pydantic `Optional[bool]`. -/
def vOptBool : JVal → Option (Option Bool)
  | .jnull => some none
  | v => (pdBool v).map some

/-- Pydantic `Optional[int]` with `validate_nonneg_int` (src/schema.py:92-106). -/
def vOptNonnegInt : JVal → Option (Option Int)
  | .jnull => some none
  | v =>
    match pdInt v with
    | some n => if 0 ≤ n then some (some n) else none
    | none => none

/-- Pydantic `Optional[float]` with `validate_nonneg_float` (src/schema.py:108-121). -/
def vOptNonnegFloat : JVal → Option (Option ℚ)
  | .jnull => some none
  | v =>
    match pdFloatV v with
    | some q => if 0 ≤ q then some (some q) else none
    | none => none

/-- Pydantic `Optional[int]` with `validate_1_10` (src/schema.py:79-90),
which returns `float(v)`. -/
def vOpt1to10Int : JVal → Option (Option ℚ)
  | .jnull => some none
  | v =>
    match pdInt v with
    | some n => if 1 ≤ n ∧ n ≤ 10 then some (some (n : ℚ)) else none
    | none => none

/-- Pydantic `Optional[float]` with `validate_1_10`. -/
def vOpt1to10Float : JVal → Option (Option ℚ)
  | .jnull => some none
  | v =>
    match pdFloatV v with
    | some q => if 1 ≤ q ∧ q ≤ 10 then some (some q) else none
    | none => none

/-- Split `"H:MM"` / `"HH:MM"` per the regex `^\d\x7b1,2\x7d:\d\x7b2\x7d$`. -/
def hhmmOf (s : String) : Option (Nat × Nat) :=
  let cs := s.data
  let hh := cs.takeWhile (fun c => c ≠ ':')
  match cs.dropWhile (fun c => c ≠ ':') with
  | ':' :: mm =>
    if (1 ≤ hh.length && hh.length ≤ 2) && hh.all Char.isDigit &&
        (mm.length = 2 && mm.all Char.isDigit) then
      some (digitsVal hh, digitsVal mm)
    else none
  | _ => none

/-- Zero-padded two-digit rendering (`f"..:02d.."`). -/
def fmt2 (n : Nat) : String := if n < 10 then "0" ++ toString n else toString n

/-- The `wake_time` validator (src/schema.py:63-77). -/
def vWakeTime : JVal → Option (Option String)
  | .jnull => some none
  | .jstr s =>
    if s = "" then some none
    else
      match hhmmOf s with
      | some (hh, mm) =>
        if hh ≤ 23 && mm ≤ 59 then some (some (fmt2 hh ++ ":" ++ fmt2 mm)) else none
      | none => none
  | _ => none

/-- Pydantic coercion of the required-string `key` / `value` fields. -/
def vReqStr (v : Option JVal) : Option String :=
  match v with
  | some (.jstr s) => some s
  | _ => none

/-- Pydantic coercion of the `unit` field (`Optional[str]`, default `""`). -/
def vUnit (v : Option JVal) : Option (Option String) :=
  match v with
  | none => some (some "")
  | some .jnull => some none
  | some (.jstr s) => some (some s)
  | _ => none

/-- Pydantic coercion of the `source` field (`str`, default `"journal"`). -/
def vSource (v : Option JVal) : Option String :=
  match v with
  | none => some "journal"
  | some (.jstr s) => some s
  | _ => none

/-- Pydantic coercion of the `confidence` field (`float`, default 0.7). -/
def vConfidence (v : Option JVal) : Option ℚ :=
  match v with
  | none => some ((7 : ℚ) / 10)
  | some w => pdFloatV w

/-- Pydantic validation of one cleaned signal dict against `Signal`. -/
def validateSignal (o : JObj) : Option Signal :=
  (vReqStr (jget o "key")).bind fun key =>
  (vReqStr (jget o "value")).bind fun value =>
  (vUnit (jget o "unit")).bind fun unit =>
  (vSource (jget o "source")).bind fun source =>
  (vConfidence (jget o "confidence")).bind fun conf =>
  some (Signal.mk key value unit source conf)

/-- Pydantic validation of the whole cleaned signal list. -/
def validateSignals : List JObj → Option (List Signal)
  | [] => some []
  | x :: xs =>
    (validateSignal x).bind fun y =>
    (validateSignals xs).bind fun ys =>
    some (y :: ys)

/-- Pydantic validation of a normalized food dict against `FoodItem`
(always succeeds on the shapes the pipeline produces). -/
def validateFood (f : Food) : FoodItem :=
  { name := f.name, quantity_text := f.quantity_text, calories := f.calories,
    protein_g := f.protein_g, confidence := f.confidence,
    source := f.source.getD "model_estimate" }

/-- First half of the validated scalar fields. -/
structure ScalarsA where
  date : Option String
  summary : Option String
  wake : Option String
  sleepH : Option ℚ
  sleepQ : Option ℚ
  gym : Option Bool
  wtype : Option String
  wmin : Option Int
  cmin : Option Int

/-- Second half of the validated scalar fields. -/
structure ScalarsB where
  water : Option Int
  creatine : Option Bool
  screen : Option ℚ
  study : Option ℚ
  weight : Option ℚ
  calEst : Option Int
  proEst : Option Int
  mood : Option ℚ

/-- Validation of the first half of the scalar fields. -/
def vScalarsA (r : JObj) : Option ScalarsA :=
  (pdOptStr (getOr r "date" .jnull)).bind fun date =>
  (pdOptStr (getOr r "summary" .jnull)).bind fun summary =>
  (vWakeTime (getOr r "wake_time" .jnull)).bind fun wake =>
  (vOptNonnegFloat (getOr r "sleep_hours" .jnull)).bind fun sleepH =>
  (vOpt1to10Int (getOr r "sleep_quality_1_10" .jnull)).bind fun sleepQ =>
  (vOptBool (getOr r "gym" .jnull)).bind fun gym =>
  (pdOptStr (getOr r "workout_type" .jnull)).bind fun wtype =>
  (vOptNonnegInt (getOr r "workout_minutes" .jnull)).bind fun wmin =>
  (vOptNonnegInt (getOr r "cardio_minutes" .jnull)).bind fun cmin =>
  some (ScalarsA.mk date summary wake sleepH sleepQ gym wtype wmin cmin)

/-- Validation of the second half of the scalar fields. -/
def vScalarsB (r : JObj) : Option ScalarsB :=
  (vOptNonnegInt (getOr r "water_bottles" .jnull)).bind fun water =>
  (vOptBool (getOr r "creatine" .jnull)).bind fun creatine =>
  (vOptNonnegFloat (getOr r "screen_time_hours" .jnull)).bind fun screen =>
  (vOptNonnegFloat (getOr r "study_hours" .jnull)).bind fun study =>
  (vOptNonnegFloat (getOr r "weight" .jnull)).bind fun weight =>
  (vOptNonnegInt (getOr r "calories_est" .jnull)).bind fun calEst =>
  (vOptNonnegInt (getOr r "protein_est" .jnull)).bind fun proEst =>
  (vOpt1to10Float (getOr r "mood_1_10" .jnull)).bind fun mood =>
  some (ScalarsB.mk water creatine screen study weight calEst proEst mood)

/-- Model of `Extraction.model_validate(raw)` (src/extract.py:526) on the
final raw mapping: scalar fields are read from the dict, `foods` and
`signals` were stored by the pipeline and are passed explicitly. -/
def validateExtraction (r : JObj) (fs : List Food) (cleaned : List JObj) :
    Option Record :=
  (vScalarsA r).bind fun a =>
  (vScalarsB r).bind fun b =>
  (validateSignals cleaned).bind fun sigs =>
  some (Record.mk a.date a.summary a.wake a.sleepH a.sleepQ a.gym a.wtype a.wmin
    a.cmin b.water b.creatine b.screen b.study b.weight (fs.map validateFood)
    b.calEst b.proEst b.mood sigs)

/-! The pipeline `extract` (src/extract.py:410-526), parameterized by the
decoded outputs of the first and (if used) second generator call. -/

/-- The non-nutrition scalar keys back-filled after a re-ask
(src/extract.py:445-460). -/
def scalarKeys : List String :=
  ["wake_time", "sleep_hours", "sleep_quality_1_10", "gym", "workout_type",
   "workout_minutes", "cardio_minutes", "water_bottles", "creatine",
   "screen_time_hours", "study_hours", "mood_1_10", "weight", "summary"]

/-- First pass (src/extract.py:411-431): pin the date, normalize signals
and foods, apply known overrides.  Returns the raw mapping, the food list
and the signal stream. -/
def pass1 (date : String) (raw1 : JObj) : JObj × List Food × List JVal :=
  let r := jset raw1 "date" (.jstr date)
  let sigs := normSignalsField (jget r "signals")
  let fs := normalize_foods (getOr r "foods" .jnull)
  let p := apply_known_overrides fs sigs
  (r, p.1, p.2)

/-- Back-fill of the scalar keys from the first pass
(`raw2.setdefault(k, raw.get(k))`, src/extract.py:445-461). -/
def backfillScalars (r1 r2 : JObj) : JObj :=
  scalarKeys.foldl (fun acc k => jsetdefault acc k (getOr r1 k .jnull)) r2

/-- Re-ask merge (src/extract.py:441-488): pin the date on the second
output, back-fill scalars, concatenate the signal streams, append the
re-ask signal, then normalize and override the second pass's foods. -/
def reaskPass (date : String) (r1 : JObj) (sigs1 : List JVal) (raw2 : JObj) :
    JObj × List Food × List JVal :=
  let r2 := backfillScalars r1 (jset raw2 "date" (.jstr date))
  let sigs2 := normSignalsField (jget raw2 "signals")
  let merged := sigs1 ++ sigs2 ++ [sanityRerunSignal]
  let fs2 := normalize_foods (getOr r2 "foods" .jnull)
  let p := apply_known_overrides fs2 merged
  (r2, p.1, p.2)

/-- Totals recomputation (src/extract.py:490-504): when foods are
non-empty, overwrite `calories_est` / `protein_est` with the sums and
append the audit signal. -/
def totalsStep (r : JObj) (fs : List Food) (sigs : List JVal) : JObj × List JVal :=
  if fs.isEmpty then (r, sigs)
  else
    let t := sum_food_macros fs
    (jset (jset r "calories_est" (.jint t.1)) "protein_est" (.jint t.2.1),
     sigs ++ [totalsSignal t.2.2 t.1 t.2.1])

/-- Screen-time guard (src/extract.py:522-524): force the field to null
unless the entry text mentions screen time. -/
def guardStep (entry : String) (r : JObj) : JObj :=
  if mentioned_screen_time entry then r else jset r "screen_time_hours" .jnull

/-- Final stage (src/extract.py:490-526): recompute totals when foods are
non-empty, clean signals, apply the screen-time guard, validate. -/
def finalize (entry : String) (st : JObj × List Food × List JVal) : Option Record :=
  let ts := totalsStep st.1 st.2.1 st.2.2
  validateExtraction (guardStep entry ts.1) st.2.1 (ts.2.filterMap cleanSignal)

/-- Result of `extract`: the validated record (`none` models a raised
validation error) and the number of generator calls made. -/
structure ExtractResult where
  record : Option Record
  rounds : Nat
deriving DecidableEq

/-- Model of `extract(entry, date)` (src/extract.py:410), parameterized by
the decoded first-pass output `raw1` and the decoded re-ask output `raw2`
(consumed only when the degeneracy check trips). -/
def extract (entry date : String) (raw1 raw2 : JObj) : ExtractResult :=
  let st := pass1 date raw1
  if !st.2.1.isEmpty && sanity_bad_uniform_macros st.2.1 then
    ⟨finalize entry (reaskPass date st.1 st.2.2 raw2), 2⟩
  else
    ⟨finalize entry st, 1⟩

/-! Model of one generation round `call_gpt` (src/extract.py:368-407) and
of `_parse_json_object` (src/extract.py:344-365).  The external pieces are
parameters: `gen model json_mode` is the backend round-trip returning
response text or a raised error, and `loads` is `json.loads` returning a
decoded value or a raised decode error. -/

/-- Opening brace character. -/
def lbrace : Char := Char.ofNat 123

/-- Closing brace character. -/
def rbrace : Char := Char.ofNat 125

/-- Index of the last occurrence of a character (Python `str.rfind`). -/
def lastIdxOf (cs : List Char) (c : Char) : Option Nat :=
  match cs.reverse.findIdx? (fun x => x = c) with
  | some i => some (cs.length - 1 - i)
  | none => none

/-- The slice `payload[start : end + 1]` from the first opening brace to
the last closing brace, when both exist in that order
(src/extract.py:358-360). -/
def braceSlice (payload : String) : Option String :=
  let cs := payload.data
  match cs.findIdx? (fun x => x = lbrace), lastIdxOf cs rbrace with
  | some s, some e => if s < e then some ⟨(cs.drop s).take (e - s + 1)⟩ else none
  | _, _ => none

/-- Model of `_parse_json_object` (src/extract.py:344-365): strict parse of
the stripped payload; on failure or a non-dict result, parse the brace
slice; errors are the raised messages. -/
def parse_json_object (loads : String → Except String JVal) (text : String) :
    Except String JObj :=
  let payload := strTrim text
  if payload = "" then .error "Model returned empty content."
  else
    match loads payload with
    | .ok (.jobj o) => .ok o
    | _ =>
      match braceSlice payload with
      | some slice =>
        match loads slice with
        | .ok (.jobj o) => .ok o
        | .ok _ => .error "Model did not return a valid JSON object."
        | .error e => .error e
      | none => .error "Model did not return a valid JSON object."

/-- The candidate backends, in order (src/extract.py:379). -/
def gptModels : List String := ["gpt-4.1-mini", "gpt-4o-mini"]

/-- The ordered (backend, strict-JSON-mode) attempts: for each model, JSON
mode first, then plain mode (src/extract.py:382-393). -/
def gptAttempts : List (String × Bool) :=
  gptModels.flatMap (fun m => [(m, true), (m, false)])

/-- Outcome of one attempt: backend error, or the response text run
through `_parse_json_object`. -/
def attemptOutcome (gen : String → Bool → Except String String)
    (loads : String → Except String JVal) (a : String × Bool) : Except String JObj :=
  match gen a.1 a.2 with
  | .error e => .error e
  | .ok text => parse_json_object loads text

/-- The terminal error message (src/extract.py:407). -/
def exhaustedMsg (last : Option String) : String :=
  "OpenAI extraction request failed after retries. Last error: " ++ last.getD "None"

/-- Attempt loop of `call_gpt`: first successful parse wins, otherwise the
terminal error carries the last underlying error. -/
def call_gpt_go (gen : String → Bool → Except String String)
    (loads : String → Except String JVal) :
    List (String × Bool) → Option String → Except String JObj
  | [], last => .error (exhaustedMsg last)
  | a :: rest, _ =>
    match attemptOutcome gen loads a with
    | .ok o => .ok o
    | .error e => call_gpt_go gen loads rest (some e)

/-- Model of `call_gpt` (src/extract.py:368-407). -/
def call_gpt (gen : String → Bool → Except String String)
    (loads : String → Except String JVal) : Except String JObj :=
  call_gpt_go gen loads gptAttempts none

/-! Interview answer parsing: `FIELD_TYPES` (src/validate.py:49-66),
`parse_bool` / `parse_value` (src/app.py:123-178, equivalently
src/main.py:13-71), and the Confirm & Save batch handler
(src/app.py:540-558). -/

/-- The field-type table (src/validate.py:49-66). -/
def FIELD_TYPES : List (String × String) :=
  [("wake_time", "time_hhmm"), ("sleep_hours", "float_nonneg"),
   ("sleep_quality_1_10", "int_1_10"), ("gym", "bool"), ("workout_type", "str"),
   ("workout_minutes", "int_nonneg"), ("cardio_minutes", "int_nonneg"),
   ("water_bottles", "int_nonneg"), ("creatine", "bool"),
   ("screen_time_hours", "float_nonneg"), ("study_hours", "float_nonneg"),
   ("calories_est", "int_nonneg"), ("protein_est", "int_nonneg"),
   ("mood_1_10", "float_1_10"), ("weight", "float_nonneg"), ("summary", "str")]

/-- `FIELD_TYPES.get(field, "str")`. -/
def fieldTypeOf (f : String) : String :=
  ((FIELD_TYPES.find? (fun kv => kv.1 = f)).map (fun kv => kv.2)).getD "str"

/-- Model of `parse_bool` (src/app.py:123). -/
def parse_bool (s : String) : Option Bool :=
  let t := strLower (strTrim s)
  if t = "y" || t = "yes" || t = "true" || t = "1" then some true
  else if t = "n" || t = "no" || t = "false" || t = "0" then some false
  else none

/-- Typed result of `parse_value`. -/
inductive PVal where
  | pbool (b : Bool)
  | pint (n : Int)
  | pfloat (q : ℚ)
  | pstr (s : String)
deriving DecidableEq

/-- The message of the `ValueError` raised by Python `float(raw)`. -/
def floatConvErr (raw : String) : String :=
  "could not convert string to float: '" ++ raw ++ "'"

/-- Model of `parse_value` (src/app.py:132-178): type-directed parsing of a
raw text answer.  Integer fields go through `int(float(raw))`, i.e. float
parse then truncation toward zero. -/
def parse_value (field rawIn : String) : Except String PVal :=
  let raw := strTrim rawIn
  let ftype := fieldTypeOf field
  if ftype = "bool" then
    match parse_bool raw with
    | some b => .ok (.pbool b)
    | none => .error "Enter yes/no."
  else if ftype = "time_hhmm" then
    match hhmmOf raw with
    | some (hh, mm) =>
      if hh ≤ 23 && mm ≤ 59 then .ok (.pstr (fmt2 hh ++ ":" ++ fmt2 mm))
      else .error "Invalid time."
    | none => .error "Must be HH:MM (e.g., 07:45 or 12:30)."
  else if ftype = "int_1_10" then
    match pyFloatOfString raw with
    | none => .error (floatConvErr raw)
    | some q =>
      let v := pyTrunc q
      if 1 ≤ v ∧ v ≤ 10 then .ok (.pint v) else .error "Must be between 1 and 10."
  else if ftype = "int_nonneg" then
    match pyFloatOfString raw with
    | none => .error (floatConvErr raw)
    | some q =>
      let v := pyTrunc q
      if 0 ≤ v then .ok (.pint v) else .error "Must be >= 0."
  else if ftype = "float_1_10" then
    match pyFloatOfString raw with
    | none => .error (floatConvErr raw)
    | some q => if 1 ≤ q ∧ q ≤ 10 then .ok (.pfloat q) else .error "Must be between 1 and 10."
  else if ftype = "float_nonneg" then
    match pyFloatOfString raw with
    | none => .error (floatConvErr raw)
    | some q => if 0 ≤ q then .ok (.pfloat q) else .error "Must be >= 0."
  else if ftype = "float" then
    match pyFloatOfString raw with
    | none => .error (floatConvErr raw)
    | some q => .ok (.pfloat q)
  else .ok (.pstr raw)

/-- Dict of typed values (the session's pending record data). -/
abbrev PDict := List (String × PVal)

/-- Python `d[k] = v` on a typed dict. -/
def pset (d : PDict) (k : String) (v : PVal) : PDict :=
  if (d.find? (fun kv => kv.1 = k)).isSome then
    d.map (fun kv => if kv.1 = k then (k, v) else kv)
  else d ++ [(k, v)]

/-- Python `data.update(answers)`. -/
def pdictUpdate (data : PDict) (answers : PDict) : PDict :=
  answers.foldl (fun d kv => pset d kv.1 kv.2) data

/-- The Confirm & Save answer loop (src/app.py:541-552): skip `None` and
blank answers, parse the rest, collecting parsed values and labeled
errors. -/
def processAnswers (answersRaw : List (String × Option String)) :
    PDict × List String :=
  answersRaw.foldl
    (fun acc fv =>
      match fv.2 with
      | none => acc
      | some v =>
        let vs := strTrim v
        if vs = "" then acc
        else
          match parse_value fv.1 vs with
          | .ok pv => (acc.1 ++ [(fv.1, pv)], acc.2)
          | .error e => (acc.1, acc.2 ++ [fv.1 ++ ": " ++ e]))
    ([], [])

/-- The Confirm & Save batch handler (src/app.py:540-558): on any error the
whole batch is rejected (`st.error` + `st.stop`) and the pending data is
untouched; otherwise all parsed answers are merged. -/
def confirmSave (answersRaw : List (String × Option String)) (data : PDict) :
    Except (List String) PDict :=
  let p := processAnswers answersRaw
  if p.2.isEmpty then .ok (pdictUpdate data p.1) else .error p.2


/-! Dictionary lemmas. -/

theorem jget_cons (kv : String × JVal) (o : JObj) (k : String) :
    jget (kv :: o) k = if kv.1 = k then some kv.2 else jget o k := by
  by_cases h : kv.1 = k <;> simp [jget, List.find?, h]

theorem jget_append (a b : JObj) (k : String) :
    jget (a ++ b) k = (jget a k).or (jget b k) := by
  induction a with
  | nil => simp [jget]
  | cons kv a ih =>
    by_cases h : kv.1 = k <;> simp [jget_cons, h, ih]

theorem jget_mapReplace_self (o : JObj) (k : String) (v : JVal) :
    jget (o.map (fun kv => if kv.1 = k then (k, v) else kv)) k =
      (jget o k).map (fun _ => v) := by
  induction o with
  | nil => rfl
  | cons kv o ih =>
    by_cases h : kv.1 = k
    · simp [h, jget_cons]
    · simp only [List.map_cons, if_neg h]
      rw [jget_cons, jget_cons]
      simp only [h, if_false]
      exact ih

theorem jget_mapReplace_ne (o : JObj) (k k' : String) (v : JVal) (h : k' ≠ k) :
    jget (o.map (fun kv => if kv.1 = k then (k, v) else kv)) k' = jget o k' := by
  induction o with
  | nil => rfl
  | cons kv o ih =>
    by_cases hk : kv.1 = k
    · simp only [List.map_cons, if_pos hk]
      rw [jget_cons, jget_cons]
      have h1 : ¬(k = k') := fun e => h e.symm
      have h2 : ¬(kv.1 = k') := by rw [hk]; exact h1
      simp only [h1, h2, if_false]
      exact ih
    · simp only [List.map_cons, if_neg hk]
      rw [jget_cons, jget_cons]
      by_cases h2 : kv.1 = k' <;> simp [h2, ih]

theorem jget_jset_self (o : JObj) (k : String) (v : JVal) :
    jget (jset o k v) k = some v := by
  unfold jset
  split
  · rename_i h
    obtain ⟨w, hw⟩ := Option.isSome_iff_exists.mp h
    rw [jget_mapReplace_self, hw]
    rfl
  · rename_i h
    rw [Option.not_isSome_iff_eq_none] at h
    rw [jget_append, h]
    simp [jget_cons]

theorem jget_jset_ne (o : JObj) (k k' : String) (v : JVal) (h : k' ≠ k) :
    jget (jset o k v) k' = jget o k' := by
  unfold jset
  split
  · exact jget_mapReplace_ne o k k' v h
  · rw [jget_append]
    simp [jget_cons, Ne.symm h, jget]

theorem jget_jsetdefault_self (o : JObj) (k : String) (v : JVal) :
    jget (jsetdefault o k v) k = some ((jget o k).getD v) := by
  unfold jsetdefault
  split
  · rename_i w h; simp [h]
  · rename_i h; rw [jget_append, h]; simp [jget_cons]

theorem jget_jsetdefault_ne (o : JObj) (k k' : String) (v : JVal) (h : k' ≠ k) :
    jget (jsetdefault o k v) k' = jget o k' := by
  unfold jsetdefault
  split
  · rfl
  · rw [jget_append]; simp [jget_cons, Ne.symm h, jget]

theorem jget_foldl_setdefault_stable (keys : List String) (r1 : JObj) (k : String) :
    ∀ r2 : JObj, (jget r2 k).isSome →
      jget (keys.foldl (fun acc k' => jsetdefault acc k' (getOr r1 k' .jnull)) r2) k = jget r2 k := by
  induction keys with
  | nil => intro r2 _; rfl
  | cons k' rest ih =>
    intro r2 h2
    obtain ⟨w, hw⟩ := Option.isSome_iff_exists.mp h2
    by_cases hk : k = k'
    · subst hk
      simp only [List.foldl_cons]
      rw [ih]
      · rw [jget_jsetdefault_self, hw]; rfl
      · rw [jget_jsetdefault_self, hw]; rfl
    · simp only [List.foldl_cons]
      rw [ih, jget_jsetdefault_ne _ _ _ _ hk]
      rw [jget_jsetdefault_ne _ _ _ _ hk]
      exact h2

theorem jget_foldl_setdefault_notmem (keys : List String) (r1 : JObj) (k : String)
    (hk : k ∉ keys) :
    ∀ r2 : JObj,
      jget (keys.foldl (fun acc k' => jsetdefault acc k' (getOr r1 k' .jnull)) r2) k = jget r2 k := by
  induction keys with
  | nil => intro r2; rfl
  | cons k' rest ih =>
    intro r2
    simp only [List.mem_cons, not_or] at hk
    simp only [List.foldl_cons]
    rw [ih hk.2, jget_jsetdefault_ne _ _ _ _ hk.1]

theorem jget_foldl_setdefault_mem (keys : List String) (r1 : JObj) (k : String)
    (hk : k ∈ keys) :
    ∀ r2 : JObj,
      jget (keys.foldl (fun acc k' => jsetdefault acc k' (getOr r1 k' .jnull)) r2) k =
        some ((jget r2 k).getD (getOr r1 k .jnull)) := by
  induction keys with
  | nil => cases hk
  | cons k' rest ih =>
    intro r2
    by_cases he : k = k'
    · subst he
      simp only [List.foldl_cons]
      rw [jget_foldl_setdefault_stable]
      · rw [jget_jsetdefault_self]
      · rw [jget_jsetdefault_self]; rfl
    · rcases List.mem_cons.mp hk with h | h
      · exact absurd h he
      · simp only [List.foldl_cons]
        rw [ih h, jget_jsetdefault_ne _ _ _ _ he]

theorem jget_backfill_notmem (r1 r2 : JObj) (k : String) (h : k ∉ scalarKeys) :
    jget (backfillScalars r1 r2) k = jget r2 k :=
  jget_foldl_setdefault_notmem scalarKeys r1 k h r2

theorem jget_backfill_mem (r1 r2 : JObj) (k : String) (h : k ∈ scalarKeys) :
    jget (backfillScalars r1 r2) k = some ((jget r2 k).getD (getOr r1 k .jnull)) :=
  jget_foldl_setdefault_mem scalarKeys r1 k h r2


theorem getOr_eq (o : JObj) (k : String) (d : JVal) : getOr o k d = (jget o k).getD d := rfl

/-! Projection lemmas for the validation model. -/

theorem vScalarsA_date {r : JObj} {a : ScalarsA} (h : vScalarsA r = some a) :
    pdOptStr (getOr r "date" .jnull) = some a.date := by
  simp only [vScalarsA, Option.bind_eq_some] at h
  obtain ⟨d, hd, s, hs, w, hw, sh, hsh, sq, hsq, g, hg, wt, hwt, wm, hwm, cm, hcm, hmk⟩ := h
  cases hmk
  exact hd

theorem vScalarsB_screen {r : JObj} {b : ScalarsB} (h : vScalarsB r = some b) :
    vOptNonnegFloat (getOr r "screen_time_hours" .jnull) = some b.screen := by
  simp only [vScalarsB, Option.bind_eq_some] at h
  obtain ⟨w, hw, c, hc, sc, hsc, st, hst, we, hwe, ce, hce, pe, hpe, mo, hmo, hmk⟩ := h
  cases hmk
  exact hsc

theorem vScalarsB_calEst {r : JObj} {b : ScalarsB} (h : vScalarsB r = some b) :
    vOptNonnegInt (getOr r "calories_est" .jnull) = some b.calEst := by
  simp only [vScalarsB, Option.bind_eq_some] at h
  obtain ⟨w, hw, c, hc, sc, hsc, st, hst, we, hwe, ce, hce, pe, hpe, mo, hmo, hmk⟩ := h
  cases hmk
  exact hce

theorem vScalarsB_proEst {r : JObj} {b : ScalarsB} (h : vScalarsB r = some b) :
    vOptNonnegInt (getOr r "protein_est" .jnull) = some b.proEst := by
  simp only [vScalarsB, Option.bind_eq_some] at h
  obtain ⟨w, hw, c, hc, sc, hsc, st, hst, we, hwe, ce, hce, pe, hpe, mo, hmo, hmk⟩ := h
  cases hmk
  exact hpe

theorem validateExtraction_parts {r : JObj} {fs : List Food} {cl : List JObj} {rec : Record}
    (h : validateExtraction r fs cl = some rec) :
    (∃ a, vScalarsA r = some a ∧ rec.date = a.date) ∧
    (∃ b, vScalarsB r = some b ∧ rec.screen_time_hours = b.screen ∧
      rec.calories_est = b.calEst ∧ rec.protein_est = b.proEst) ∧
    rec.foods = fs.map validateFood ∧
    validateSignals cl = some rec.signals := by
  simp only [validateExtraction, Option.bind_eq_some] at h
  obtain ⟨a, ha, b, hb, sigs, hsigs, hmk⟩ := h
  cases hmk
  exact ⟨⟨a, ha, rfl⟩, ⟨b, hb, rfl, rfl, rfl⟩, rfl, hsigs⟩

theorem validateExtraction_date {r fs cl rec d} (h : validateExtraction r fs cl = some rec)
    (hv : jget r "date" = some (.jstr d)) : rec.date = some d := by
  obtain ⟨⟨a, ha, hda⟩, -, -, -⟩ := validateExtraction_parts h
  have := vScalarsA_date ha
  rw [getOr_eq, hv] at this
  simp only [Option.getD_some, pdOptStr] at this
  rw [hda]
  injection this with h2
  rw [← h2]

theorem validateExtraction_screen_null {r fs cl rec} (h : validateExtraction r fs cl = some rec)
    (hv : jget r "screen_time_hours" = some .jnull) : rec.screen_time_hours = none := by
  obtain ⟨-, ⟨b, hb, hsb, -, -⟩, -, -⟩ := validateExtraction_parts h
  have := vScalarsB_screen hb
  rw [getOr_eq, hv] at this
  simp only [Option.getD_some, vOptNonnegFloat] at this
  rw [hsb]
  injection this with h2
  rw [← h2]

theorem validateExtraction_screen_float {r fs cl rec q} (h : validateExtraction r fs cl = some rec)
    (hv : jget r "screen_time_hours" = some (.jfloat q)) : rec.screen_time_hours = some q := by
  obtain ⟨-, ⟨b, hb, hsb, -, -⟩, -, -⟩ := validateExtraction_parts h
  have := vScalarsB_screen hb
  rw [getOr_eq, hv] at this
  simp only [Option.getD_some] at this
  rw [show vOptNonnegFloat (.jfloat q) = if 0 ≤ q then some (some q) else none from rfl] at this
  rw [hsb]
  split at this
  · injection this with h2
    rw [← h2]
  · cases this

/-! Step lemmas for `finalize`. -/

theorem jget_totalsStep_ne (r : JObj) (fs : List Food) (sigs : List JVal) (k : String)
    (h1 : k ≠ "calories_est") (h2 : k ≠ "protein_est") :
    jget (totalsStep r fs sigs).1 k = jget r k := by
  unfold totalsStep
  split
  · rfl
  · simp only
    rw [jget_jset_ne _ _ _ _ h2, jget_jset_ne _ _ _ _ h1]

theorem jget_guardStep_ne (entry : String) (r : JObj) (k : String)
    (h : k ≠ "screen_time_hours") : jget (guardStep entry r) k = jget r k := by
  unfold guardStep
  split
  · rfl
  · rw [jget_jset_ne _ _ _ _ h]

theorem guardStep_not_mentioned {entry : String} (r : JObj)
    (h : mentioned_screen_time entry = false) :
    jget (guardStep entry r) "screen_time_hours" = some .jnull := by
  unfold guardStep
  rw [h]
  simp only [Bool.false_eq_true, if_false]
  exact jget_jset_self r _ _

theorem guardStep_mentioned {entry : String} (r : JObj)
    (h : mentioned_screen_time entry = true) : guardStep entry r = r := by
  unfold guardStep
  rw [h]
  simp


/-! Lemmas tracing `finalize` and `extract`. -/

theorem finalize_screen_not_mentioned {entry : String} {st : JObj × List Food × List JVal}
    {rec : Record} (hm : mentioned_screen_time entry = false)
    (h : finalize entry st = some rec) : rec.screen_time_hours = none := by
  simp only [finalize] at h
  exact validateExtraction_screen_null h (guardStep_not_mentioned _ hm)

theorem finalize_screen_mentioned {entry : String} {st : JObj × List Food × List JVal}
    {rec : Record} {q : ℚ} (hm : mentioned_screen_time entry = true)
    (hv : jget st.1 "screen_time_hours" = some (.jfloat q))
    (h : finalize entry st = some rec) : rec.screen_time_hours = some q := by
  simp only [finalize] at h
  apply validateExtraction_screen_float h
  rw [guardStep_mentioned _ hm, jget_totalsStep_ne]
  · exact hv
  · decide
  · decide

theorem finalize_date {entry : String} {st : JObj × List Food × List JVal} {rec : Record}
    {d : String} (hd : jget st.1 "date" = some (.jstr d))
    (h : finalize entry st = some rec) : rec.date = some d := by
  simp only [finalize] at h
  apply validateExtraction_date h
  rw [jget_guardStep_ne _ _ _ (by decide), jget_totalsStep_ne _ _ _ _ (by decide) (by decide)]
  exact hd

theorem extract_record_cases {entry date : String} {raw1 raw2 : JObj} {rec : Record} {n : Nat}
    (h : extract entry date raw1 raw2 = ⟨some rec, n⟩) :
    (finalize entry (pass1 date raw1) = some rec ∧ n = 1) ∨
    (finalize entry (reaskPass date (pass1 date raw1).1 (pass1 date raw1).2.2 raw2) = some rec ∧
      n = 2) := by
  simp only [extract] at h
  split at h
  · right; injection h with h1 h2; exact ⟨h1, h2.symm⟩
  · left; injection h with h1 h2; exact ⟨h1, h2.symm⟩

theorem pass1_date_key (date : String) (raw1 : JObj) :
    jget (pass1 date raw1).1 "date" = some (.jstr date) := by
  simp only [pass1]
  exact jget_jset_self _ _ _

theorem reaskPass_date_key (date : String) (r1 : JObj) (sigs : List JVal) (raw2 : JObj) :
    jget (reaskPass date r1 sigs raw2).1 "date" = some (.jstr date) := by
  simp only [reaskPass]
  rw [jget_backfill_notmem _ _ _ (by decide)]
  exact jget_jset_self _ _ _

/-- The all-absent record, used to state concrete pipeline outputs. -/
def emptyRec : Record :=
  { date := none, summary := none, wake_time := none, sleep_hours := none,
    sleep_quality_1_10 := none, gym := none, workout_type := none,
    workout_minutes := none, cardio_minutes := none, water_bottles := none,
    creatine := none, screen_time_hours := none, study_hours := none, weight := none,
    foods := [], calories_est := none, protein_est := none, mood_1_10 := none,
    signals := [] }

/-- C9: the extraction pipeline always overwrites the generator-returned
date with the caller-supplied one, in both the single-pass and the re-ask
path, so the final Record's date equals the caller's date. -/
theorem claim_C9 (entry date : String) (raw1 raw2 : JObj) (rec : Record) (n : Nat)
    (h : extract entry date raw1 raw2 = ⟨some rec, n⟩) : rec.date = some date := by
  rcases extract_record_cases h with ⟨hf, -⟩ | ⟨hf, -⟩
  · exact finalize_date (pass1_date_key date raw1) hf
  · exact finalize_date (reaskPass_date_key date _ _ raw2) hf

theorem claim_C9_witness :
    ({ emptyRec with date := some "2024-01-15" } : Record).date = some "2024-01-15" :=
  claim_C9 "slept well" "2024-01-15" [("date", .jstr "1999-01-01")] []
    { emptyRec with date := some "2024-01-15" } 1 (by decide)

/-- C5: if the entry text contains none of the fixed screen-time phrases,
the final Record's `screen_time_hours` is absent whatever the generator
returned; if the text contains "screen time", a generator-supplied float
is preserved into the final Record. -/
theorem claim_C5 :
    (∀ (entry date : String) (raw1 raw2 : JObj) (rec : Record) (n : Nat),
      mentioned_screen_time entry = false →
      extract entry date raw1 raw2 = ⟨some rec, n⟩ →
      rec.screen_time_hours = none) ∧
    (∀ (entry date : String) (raw1 raw2 : JObj) (rec : Record) (q : ℚ),
      containsSub (strLower entry) "screen time" = true →
      jget raw1 "screen_time_hours" = some (.jfloat q) →
      extract entry date raw1 raw2 = ⟨some rec, 1⟩ →
      rec.screen_time_hours = some q) := by
  constructor
  · intro entry date raw1 raw2 rec n hm h
    rcases extract_record_cases h with ⟨hf, -⟩ | ⟨hf, -⟩ <;>
      exact finalize_screen_not_mentioned hm hf
  · intro entry date raw1 raw2 rec q hc hv h
    have hm : mentioned_screen_time entry = true := by
      show (screenPhrases.any fun p => containsSub (strLower entry) p) = true
      simp only [screenPhrases, List.any_cons, Bool.or_eq_true]
      exact Or.inl hc
    rcases extract_record_cases h with ⟨hf, -⟩ | ⟨-, hn⟩
    · apply finalize_screen_mentioned hm _ hf
      simp only [pass1]
      rw [jget_jset_ne _ _ _ _ (by decide)]
      exact hv
    · exact absurd hn (by decide)

theorem claim_C5_witness :
    (mentioned_screen_time "busy day" = false ∧
      ({ emptyRec with date := some "2024-01-01" } : Record).screen_time_hours = none) ∧
    (containsSub (strLower "screen time was 5") "screen time" = true ∧
      ({ emptyRec with date := some "2024-01-01", screen_time_hours := some 5 } : Record).screen_time_hours = some 5) :=
  ⟨⟨by decide,
    claim_C5.1 "busy day" "2024-01-01" [("screen_time_hours", .jfloat 5)] []
      { emptyRec with date := some "2024-01-01" } 1 (by decide) (by decide)⟩,
   ⟨by decide,
    claim_C5.2 "screen time was 5" "2024-01-01" [("screen_time_hours", .jfloat 5)] []
      { emptyRec with date := some "2024-01-01", screen_time_hours := some 5 } 5
      (by decide) rfl (by decide)⟩⟩


/-! Degeneracy check: characterization and the re-ask decision (C2). -/

theorem isEmpty_false_iff {α : Type} (l : List α) : l.isEmpty = false ↔ l ≠ [] := by
  cases l <;> simp

theorem foldr_max_ge (n : Nat) (hn : 0 < n) (l : List Nat) :
    (n ≤ l.foldr max 0) ↔ ∃ x ∈ l, n ≤ x := by
  induction l with
  | nil => simp; omega
  | cons a t ih =>
    simp only [List.foldr_cons]
    constructor
    · intro hh
      rcases le_max_iff.mp hh with h | h
      · exact ⟨a, List.mem_cons_self a t, h⟩
      · obtain ⟨x, hx, hnx⟩ := ih.mp h
        exact ⟨x, List.mem_cons_of_mem a hx, hnx⟩
    · rintro ⟨x, hx, hnx⟩
      rcases List.mem_cons.mp hx with rfl | hx
      · exact le_max_of_le_left hnx
      · exact le_max_of_le_right (ih.mpr ⟨x, hx, hnx⟩)

theorem sanity_iff (fs : List Food) :
    sanity_bad_uniform_macros fs = true ↔
      4 ≤ (sanityPairs fs).length ∧ ∃ p, 4 ≤ (sanityPairs fs).count p := by
  simp only [sanity_bad_uniform_macros]
  split
  · rename_i hlt
    constructor
    · intro hf; cases hf
    · rintro ⟨hlen, -⟩; omega
  · rename_i hge
    rw [decide_eq_true_eq]
    constructor
    · intro hmax
      refine ⟨by omega, ?_⟩
      obtain ⟨x, hx, h4⟩ := (foldr_max_ge 4 (by norm_num) _).mp hmax
      obtain ⟨p, hp, rfl⟩ := List.mem_map.mp hx
      exact ⟨p, h4⟩
    · rintro ⟨hlen, p, hp⟩
      rw [foldr_max_ge 4 (by norm_num)]
      have hmem : p ∈ sanityPairs fs := by
        by_contra hnm
        rw [List.count_eq_zero_of_not_mem hnm] at hp
        omega
      exact ⟨_, List.mem_map_of_mem _ hmem, hp⟩

theorem pass1_foods (date : String) (raw1 : JObj) :
    (pass1 date raw1).2.1 =
      (apply_known_overrides (normalize_foods (getOr raw1 "foods" .jnull))
        (normSignalsField (jget raw1 "signals"))).1 := by
  simp only [pass1, getOr_eq]
  rw [jget_jset_ne _ _ _ _ (by decide), jget_jset_ne _ _ _ _ (by decide)]

theorem pass1_sigs (date : String) (raw1 : JObj) :
    (pass1 date raw1).2.2 =
      (apply_known_overrides (normalize_foods (getOr raw1 "foods" .jnull))
        (normSignalsField (jget raw1 "signals"))).2 := by
  simp only [pass1, getOr_eq]
  rw [jget_jset_ne _ _ _ _ (by decide), jget_jset_ne _ _ _ _ (by decide)]

theorem extract_rounds_eq (entry date : String) (raw1 raw2 : JObj) :
    (extract entry date raw1 raw2).rounds =
      if !(pass1 date raw1).2.1.isEmpty && sanity_bad_uniform_macros (pass1 date raw1).2.1
      then 2 else 1 := by
  simp only [extract]
  split <;> rename_i hc
  · simp [hc]
  · simp [hc]

/-- C2: a re-ask (second generator round) happens iff the
normalized-and-overridden first-pass food list is non-empty, has at least
4 items with both macros present as integers, and some (calories, protein)
pair occurs at least 4 times among them; and every extraction makes at
most two generator rounds, whatever the second output is. -/
theorem claim_C2 (entry date : String) (raw1 raw2 : JObj) :
    (extract entry date raw1 raw2).rounds ≤ 2 ∧
    ((extract entry date raw1 raw2).rounds = 2 ↔
      (let fs := (apply_known_overrides (normalize_foods (getOr raw1 "foods" .jnull))
          (normSignalsField (jget raw1 "signals"))).1
       fs ≠ [] ∧ 4 ≤ (sanityPairs fs).length ∧ ∃ p, 4 ≤ (sanityPairs fs).count p)) := by
  rw [extract_rounds_eq]
  rw [show (apply_known_overrides (normalize_foods (getOr raw1 "foods" .jnull))
          (normSignalsField (jget raw1 "signals"))).1 = (pass1 date raw1).2.1 from (pass1_foods date raw1).symm]
  constructor
  · split <;> omega
  · split <;> rename_i hc
    · simp only [Bool.and_eq_true, Bool.not_eq_true'] at hc
      obtain ⟨hne, hs⟩ := hc
      have h2 := (sanity_iff _).mp hs
      simp only [true_iff]
      exact ⟨(isEmpty_false_iff _).mp hne, h2.1, h2.2⟩
    · rw [Bool.and_eq_true, Bool.not_eq_true'] at hc
      constructor
      · intro h12; cases h12
      · rintro ⟨hne, hlen, hp⟩
        have hE : (pass1 date raw1).2.1.isEmpty = false := (isEmpty_false_iff _).mpr hne
        have hs : sanity_bad_uniform_macros (pass1 date raw1).2.1 = true :=
          (sanity_iff _).mpr ⟨hlen, hp⟩
        exact absurd ⟨hE, hs⟩ hc


/-! Totals recomputation (C3). -/

/-- Sum of macros over validated food items where both are present
(mirrors `sum_food_macros` on the validated shape). -/
def sumFoodItemMacros (fs : List FoodItem) : Int × Int × Nat :=
  fs.foldl
    (fun acc f =>
      match f.calories, f.protein_g with
      | some c, some p => (acc.1 + c, acc.2.1 + p, acc.2.2 + 1)
      | _, _ => acc)
    (0, 0, 0)

theorem sumFoodItemMacros_map_validateFood (fs : List Food) :
    sumFoodItemMacros (fs.map validateFood) = sum_food_macros fs := by
  unfold sumFoodItemMacros sum_food_macros
  rw [List.foldl_map]
  congr 1

theorem totalsStep_nonempty (r : JObj) {fs : List Food} (sigs : List JVal)
    (h : fs.isEmpty = false) :
    totalsStep r fs sigs =
      (jset (jset r "calories_est" (.jint (sum_food_macros fs).1)) "protein_est"
        (.jint (sum_food_macros fs).2.1),
       sigs ++ [totalsSignal (sum_food_macros fs).2.2 (sum_food_macros fs).1
         (sum_food_macros fs).2.1]) := by
  simp [totalsStep, h]

theorem totalsStep_empty (r : JObj) {fs : List Food} (sigs : List JVal)
    (h : fs = []) : totalsStep r fs sigs = (r, sigs) := by
  simp [totalsStep, h]

/-- The message of the totals signal. -/
def totalsMsg (counted : Nat) (tc tp : Int) : String :=
  "Summed " ++ toString counted ++ " food items: " ++ toString tc ++ " cal, " ++
    toString tp ++ "g protein."

theorem cleanSignal_totals (c : Nat) (tc tp : Int) :
    cleanSignal (totalsSignal c tc tp) =
      some [("key", .jstr "macro_totals_computed"),
            ("value", .jstr (totalsMsg c tc tp)),
            ("unit", .jstr ""), ("source", .jstr "code"),
            ("confidence", .jfloat (19 / 20))] := rfl

theorem validateSignal_totalsObj (c : Nat) (tc tp : Int) :
    validateSignal
      [("key", .jstr "macro_totals_computed"),
       ("value", .jstr (totalsMsg c tc tp)),
       ("unit", .jstr ""), ("source", .jstr "code"),
       ("confidence", .jfloat (19 / 20))] =
      some ⟨"macro_totals_computed", totalsMsg c tc tp, some "", "code", 19 / 20⟩ := rfl

theorem validateSignals_concat {l : List JObj} {x : JObj} {out : List Signal}
    (h : validateSignals (l ++ [x]) = some out) :
    ∃ out1 y, validateSignal x = some y ∧ out = out1 ++ [y] := by
  induction l generalizing out with
  | nil =>
    simp only [List.nil_append, validateSignals, Option.bind_eq_some] at h
    obtain ⟨y, hy, ys, hys, hmk⟩ := h
    simp only [validateSignals, Option.some.injEq] at hys
    subst hys
    cases hmk
    exact ⟨[], y, hy, rfl⟩
  | cons a t ih =>
    simp only [List.cons_append, validateSignals, Option.bind_eq_some] at h
    obtain ⟨y, hy, ys, hys, hmk⟩ := h
    obtain ⟨out1, z, hz, rfl⟩ := ih hys
    cases hmk
    exact ⟨y :: out1, z, hz, rfl⟩

theorem validateExtraction_calEst_int {r : JObj} {fs : List Food} {cl : List JObj}
    {rec : Record} {m : Int} (h : validateExtraction r fs cl = some rec)
    (hv : jget r "calories_est" = some (.jint m)) : rec.calories_est = some m := by
  obtain ⟨-, ⟨b, hb, -, hcb, -⟩, -, -⟩ := validateExtraction_parts h
  have := vScalarsB_calEst hb
  rw [getOr_eq, hv] at this
  simp only [Option.getD_some] at this
  rw [show vOptNonnegInt (.jint m) = if 0 ≤ m then some (some m) else none from rfl] at this
  rw [hcb]
  split at this
  · injection this with h2
    rw [← h2]
  · cases this

theorem validateExtraction_proEst_int {r : JObj} {fs : List Food} {cl : List JObj}
    {rec : Record} {m : Int} (h : validateExtraction r fs cl = some rec)
    (hv : jget r "protein_est" = some (.jint m)) : rec.protein_est = some m := by
  obtain ⟨-, ⟨b, hb, -, -, hpb⟩, -, -⟩ := validateExtraction_parts h
  have := vScalarsB_proEst hb
  rw [getOr_eq, hv] at this
  simp only [Option.getD_some] at this
  rw [show vOptNonnegInt (.jint m) = if 0 ≤ m then some (some m) else none from rfl] at this
  rw [hpb]
  split at this
  · injection this with h2
    rw [← h2]
  · cases this

theorem finalize_totals_nonempty {entry : String} {st : JObj × List Food × List JVal}
    {rec : Record} (hne : st.2.1.isEmpty = false) (h : finalize entry st = some rec) :
    rec.calories_est = some (sum_food_macros st.2.1).1 ∧
    rec.protein_est = some (sum_food_macros st.2.1).2.1 ∧
    rec.signals.getLast? = some ⟨"macro_totals_computed",
      totalsMsg (sum_food_macros st.2.1).2.2 (sum_food_macros st.2.1).1
        (sum_food_macros st.2.1).2.1, some "", "code", 19 / 20⟩ := by
  simp only [finalize, totalsStep_nonempty _ _ hne] at h
  refine ⟨?_, ?_, ?_⟩
  · apply validateExtraction_calEst_int h
    rw [jget_guardStep_ne _ _ _ (by decide), jget_jset_ne _ _ _ _ (by decide)]
    exact jget_jset_self _ _ _
  · apply validateExtraction_proEst_int h
    rw [jget_guardStep_ne _ _ _ (by decide)]
    exact jget_jset_self _ _ _
  · obtain ⟨-, -, -, hsigs⟩ := validateExtraction_parts h
    rw [List.filterMap_append] at hsigs
    simp only [List.filterMap_cons, List.filterMap_nil, cleanSignal_totals] at hsigs
    obtain ⟨out1, y, hy, hout⟩ := validateSignals_concat hsigs
    rw [validateSignal_totalsObj] at hy
    injection hy with hy
    rw [hout, ← hy]
    exact List.getLast?_concat _

theorem finalize_totals_empty {entry : String} {st : JObj × List Food × List JVal}
    {rec : Record} (he : st.2.1 = []) (h : finalize entry st = some rec) :
    vOptNonnegInt (getOr st.1 "calories_est" .jnull) = some rec.calories_est ∧
    vOptNonnegInt (getOr st.1 "protein_est" .jnull) = some rec.protein_est := by
  simp only [finalize, totalsStep_empty _ _ he] at h
  obtain ⟨-, ⟨b, hb, -, hcb, hpb⟩, -, -⟩ := validateExtraction_parts h
  have h1 := vScalarsB_calEst hb
  have h2 := vScalarsB_proEst hb
  rw [getOr_eq, jget_guardStep_ne _ _ _ (by decide), ← getOr_eq] at h1
  rw [getOr_eq, jget_guardStep_ne _ _ _ (by decide), ← getOr_eq] at h2
  rw [hcb, hpb]
  exact ⟨h1, h2⟩

theorem extract_foods_eq {entry date : String} {raw1 raw2 : JObj} {rec : Record} {n : Nat}
    (h : extract entry date raw1 raw2 = ⟨some rec, n⟩) :
    (finalize entry (pass1 date raw1) = some rec ∧ n = 1 ∧
      rec.foods = (pass1 date raw1).2.1.map validateFood) ∨
    (finalize entry (reaskPass date (pass1 date raw1).1 (pass1 date raw1).2.2 raw2) = some rec ∧
      n = 2 ∧
      rec.foods = (reaskPass date (pass1 date raw1).1 (pass1 date raw1).2.2 raw2).2.1.map
        validateFood) := by
  rcases extract_record_cases h with ⟨hf, hn⟩ | ⟨hf, hn⟩
  · left
    refine ⟨hf, hn, ?_⟩
    simp only [finalize] at hf
    obtain ⟨-, -, hfd, -⟩ := validateExtraction_parts hf
    exact hfd
  · right
    refine ⟨hf, hn, ?_⟩
    simp only [finalize] at hf
    obtain ⟨-, -, hfd, -⟩ := validateExtraction_parts hf
    exact hfd

/-- C3: whenever the reconciled Record has non-empty foods, its
`calories_est` / `protein_est` equal the sums over exactly those items
where both macros are present integers (so recomputing them from the
Record is idempotent), and the last signal records the count of summed
items and the totals; with empty foods the generator-supplied totals of
the last round (or their absence) pass through validation untouched. -/
theorem claim_C3 (entry date : String) (raw1 raw2 : JObj) (rec : Record) (n : Nat)
    (h : extract entry date raw1 raw2 = ⟨some rec, n⟩) :
    (rec.foods ≠ [] →
      rec.calories_est = some (sumFoodItemMacros rec.foods).1 ∧
      rec.protein_est = some (sumFoodItemMacros rec.foods).2.1 ∧
      rec.signals.getLast? = some ⟨"macro_totals_computed",
        totalsMsg (sumFoodItemMacros rec.foods).2.2 (sumFoodItemMacros rec.foods).1
          (sumFoodItemMacros rec.foods).2.1, some "", "code", 19 / 20⟩) ∧
    (rec.foods = [] →
      (n = 1 → vOptNonnegInt (getOr raw1 "calories_est" .jnull) = some rec.calories_est ∧
        vOptNonnegInt (getOr raw1 "protein_est" .jnull) = some rec.protein_est) ∧
      (n = 2 → vOptNonnegInt (getOr raw2 "calories_est" .jnull) = some rec.calories_est ∧
        vOptNonnegInt (getOr raw2 "protein_est" .jnull) = some rec.protein_est)) := by
  rcases extract_foods_eq h with ⟨hf, hn, hfd⟩ | ⟨hf, hn, hfd⟩
  · subst hn
    constructor
    · intro hne
      have hE : (pass1 date raw1).2.1.isEmpty = false := by
        rw [isEmpty_false_iff]
        intro he
        rw [he] at hfd
        simp at hfd
        exact hne hfd
      have := finalize_totals_nonempty hE hf
      rw [hfd, sumFoodItemMacros_map_validateFood]
      exact this
    · intro he
      refine ⟨fun _ => ?_, fun h2 => absurd h2 (by decide)⟩
      have hE : (pass1 date raw1).2.1 = [] := by
        rw [hfd] at he
        exact List.map_eq_nil_iff.mp he
      have := finalize_totals_empty hE hf
      have hkey : ∀ k, k = "calories_est" ∨ k = "protein_est" →
          getOr (pass1 date raw1).1 k .jnull = getOr raw1 k .jnull := by
        rintro k (rfl | rfl) <;>
          · simp only [pass1, getOr_eq]
            rw [jget_jset_ne _ _ _ _ (by decide)]
      rw [hkey _ (Or.inl rfl), hkey _ (Or.inr rfl)] at this
      exact this
  · subst hn
    constructor
    · intro hne
      have hE : (reaskPass date (pass1 date raw1).1 (pass1 date raw1).2.2 raw2).2.1.isEmpty
          = false := by
        rw [isEmpty_false_iff]
        intro he
        rw [he] at hfd
        simp at hfd
        exact hne hfd
      have := finalize_totals_nonempty hE hf
      rw [hfd, sumFoodItemMacros_map_validateFood]
      exact this
    · intro he
      refine ⟨fun h1 => absurd h1 (by decide), fun _ => ?_⟩
      have hE : (reaskPass date (pass1 date raw1).1 (pass1 date raw1).2.2 raw2).2.1 = [] := by
        rw [hfd] at he
        exact List.map_eq_nil_iff.mp he
      have := finalize_totals_empty hE hf
      have hkey : ∀ k, k = "calories_est" ∨ k = "protein_est" →
          getOr (reaskPass date (pass1 date raw1).1 (pass1 date raw1).2.2 raw2).1 k .jnull =
            getOr raw2 k .jnull := by
        rintro k (rfl | rfl) <;>
          · simp only [reaskPass, getOr_eq]
            rw [jget_backfill_notmem _ _ _ (by decide), jget_jset_ne _ _ _ _ (by decide)]
      rw [hkey _ (Or.inl rfl), hkey _ (Or.inr rfl)] at this
      exact this

/-- Concrete record used by the C3 witness. -/
def bananaRec : Record :=
  { emptyRec with
    date := some "2024-01-15"
    foods := [⟨"banana", "1", some 105, some 1, 7 / 10, "model_estimate"⟩]
    calories_est := some 105
    protein_est := some 1
    signals := [⟨"macro_totals_computed", totalsMsg 1 105 1, some "", "code", 19 / 20⟩] }

/-- Concrete first-pass generator output used by the C3 witness. -/
def bananaRaw : JObj :=
  [("foods", .jarr [.jobj [("name", .jstr "banana"), ("quantity_text", .jstr "1"),
    ("calories", .jint 105), ("protein_g", .jint 1)]])]

theorem claim_C3_witness :
    bananaRec.foods ≠ [] ∧ bananaRec.calories_est = some 105 ∧
      bananaRec.signals.getLast? =
        some ⟨"macro_totals_computed", totalsMsg 1 105 1, some "", "code", 19 / 20⟩ := by
  have hmain := claim_C3 "ate a banana" "2024-01-15" bananaRaw [] bananaRec 1 (by decide)
  have hne : bananaRec.foods ≠ [] := by decide
  have h1 := hmain.1 hne
  refine ⟨hne, ?_, ?_⟩
  · rw [h1.1]; decide
  · rw [h1.2.2]; decide


/-! Ordering facts about the Python string comparison, used for the
de-duplication property of the override signal. -/

theorem charListLt_irrefl : ∀ a : List Char, charListLt a a = false := by
  intro a
  induction a with
  | nil => rfl
  | cons x xs ih => simp [charListLt, ih]

theorem charListLt_trans (a : List Char) :
    ∀ b c, charListLt a b = true → charListLt b c = true → charListLt a c = true := by
  induction a with
  | nil =>
    intro b c hab hbc
    cases b with
    | nil => cases hab
    | cons y ys =>
      cases c with
      | nil => cases hbc
      | cons z zs => rfl
  | cons x xs ih =>
    intro b c hab hbc
    cases b with
    | nil => cases hab
    | cons y ys =>
      cases c with
      | nil => cases hbc
      | cons z zs =>
        simp only [charListLt] at hab hbc ⊢
        split_ifs at hab hbc ⊢ <;> first | rfl | omega | exact ih ys zs hab hbc

theorem char_eq_of_toNat_eq {a b : Char} (h : a.toNat = b.toNat) : a = b := by
  have := congrArg Char.ofNat h
  rwa [Char.ofNat_toNat, Char.ofNat_toNat] at this

theorem charListLt_total : ∀ a b : List Char,
    a = b ∨ charListLt a b = true ∨ charListLt b a = true := by
  intro a
  induction a with
  | nil =>
    intro b
    cases b with
    | nil => exact Or.inl rfl
    | cons y ys => exact Or.inr (Or.inl rfl)
  | cons x xs ih =>
    intro b
    cases b with
    | nil => exact Or.inr (Or.inr rfl)
    | cons y ys =>
      by_cases h1 : x.toNat < y.toNat
      · exact Or.inr (Or.inl (by simp [charListLt, h1]))
      · by_cases h2 : y.toNat < x.toNat
        · exact Or.inr (Or.inr (by simp [charListLt, h2]))
        · have hxy : x = y := char_eq_of_toNat_eq (by omega)
          subst hxy
          rcases ih ys with rfl | h | h
          · exact Or.inl rfl
          · exact Or.inr (Or.inl (by simp [charListLt, h1]; exact h))
          · exact Or.inr (Or.inr (by simp [charListLt, h1]; exact h))

theorem strLt_irrefl (a : String) : strLt a a = false := charListLt_irrefl a.data

theorem strLt_trans {a b c : String} (h1 : strLt a b = true) (h2 : strLt b c = true) :
    strLt a c = true := charListLt_trans a.data b.data c.data h1 h2

theorem strLt_total (a b : String) : a = b ∨ strLt a b = true ∨ strLt b a = true := by
  rcases charListLt_total a.data b.data with h | h | h
  · exact Or.inl (by cases a; cases b; cases h; rfl)
  · exact Or.inr (Or.inl h)
  · exact Or.inr (Or.inr h)

theorem mem_insertSortedDedup (s a : String) :
    ∀ l : List String, a ∈ insertSortedDedup s l ↔ a = s ∨ a ∈ l := by
  intro l
  induction l with
  | nil => simp [insertSortedDedup]
  | cons x xs ih =>
    simp only [insertSortedDedup]
    split
    · rename_i he
      subst he
      constructor
      · intro h; exact Or.inr h
      · rintro (rfl | h)
        · exact List.mem_cons_self _ _
        · exact h
    · split
      · simp [List.mem_cons]
      · simp only [List.mem_cons, ih]
        tauto

theorem pairwise_insertSortedDedup (s : String) :
    ∀ l : List String, l.Pairwise (fun a b => strLt a b = true) →
      (insertSortedDedup s l).Pairwise (fun a b => strLt a b = true) := by
  intro l
  induction l with
  | nil => intro _; simp [insertSortedDedup]
  | cons x xs ih =>
    intro hp
    rw [List.pairwise_cons] at hp
    simp only [insertSortedDedup]
    split
    · rename_i he
      subst he
      exact List.pairwise_cons.mpr hp
    · rename_i hne
      split
      · rename_i hlt
        refine List.pairwise_cons.mpr ⟨?_, List.pairwise_cons.mpr hp⟩
        intro b hb
        rcases List.mem_cons.mp hb with rfl | hb
        · exact hlt
        · exact strLt_trans hlt (hp.1 b hb)
      · rename_i hnlt
        have hxs : strLt x s = true := by
          rcases strLt_total s x with rfl | h | h
          · exact absurd rfl hne
          · exact absurd h hnlt
          · exact h
        refine List.pairwise_cons.mpr ⟨?_, ih hp.2⟩
        intro b hb
        rcases (mem_insertSortedDedup s b xs).mp hb with rfl | hb
        · exact hxs
        · exact hp.1 b hb

theorem sortedDedup_pairwise (l : List String) :
    (sortedDedup l).Pairwise (fun a b => strLt a b = true) := by
  unfold sortedDedup
  induction l with
  | nil => simp
  | cons x xs ih => exact pairwise_insertSortedDedup x _ ih

theorem sortedDedup_nodup (l : List String) : (sortedDedup l).Nodup := by
  have := sortedDedup_pairwise l
  exact this.imp (fun hab => by rintro rfl; rw [strLt_irrefl] at hab; cases hab)

theorem mem_sortedDedup (a : String) (l : List String) :
    a ∈ sortedDedup l ↔ a ∈ l := by
  unfold sortedDedup
  induction l with
  | nil => simp
  | cons x xs ih =>
    simp only [List.foldr_cons, mem_insertSortedDedup, List.mem_cons, ih]


/-! Known-item overrides (C1, C10). -/

theorem shouldOverride_iff (f : Food) (km : KnownMatch) :
    shouldOverride f km.calories km.protein_g = true ↔
      (f.calories = none ∨ f.protein_g = none ∨
        80 ≤ ((f.calories.getD 0) - km.calories).natAbs ∨
        10 ≤ ((f.protein_g.getD 0) - km.protein_g).natAbs) := by
  cases hc : f.calories <;> cases hp : f.protein_g <;>
    simp [shouldOverride, hc, hp]

theorem overrideItem_pos {f : Food} {km : KnownMatch}
    (hm : match_known_food_by_name f.name = some km)
    (hso : shouldOverride f km.calories km.protein_g = true) :
    overrideItem f =
      ({ f with
         calories := some km.calories
         protein_g := some km.protein_g
         confidence := max f.confidence (19 / 20)
         source := some "known_food"
         matched_known := some km.known_name }, some km.known_name) := by
  simp only [overrideItem, hm, hso, if_true]

theorem overrideItem_neg_matched {f : Food} {km : KnownMatch}
    (hm : match_known_food_by_name f.name = some km)
    (hso : shouldOverride f km.calories km.protein_g = false) :
    overrideItem f = ({ f with source := some (f.source.getD "model_estimate") }, none) := by
  simp only [overrideItem, hm, hso, Bool.false_eq_true, if_false]

theorem apply_known_overrides_fst (foods : List Food) (sigs : List JVal) :
    (apply_known_overrides foods sigs).1 = foods.map (fun f => (overrideItem f).1) := by
  simp only [apply_known_overrides]
  split <;> simp [List.map_map, Function.comp_def]

theorem apply_known_overrides_snd (foods : List Food) (sigs : List JVal) :
    (apply_known_overrides foods sigs).2 =
      (if (foods.filterMap (fun f => (overrideItem f).2)).isEmpty then sigs
       else sigs ++ [overrideSignal (foods.filterMap (fun f => (overrideItem f).2))]) := by
  simp only [apply_known_overrides, List.filterMap_map, Function.comp_def]
  split <;> rfl

/-- C1: a matched food item is overridden iff its calories or protein are
absent or off by at least 80 calories or 10 grams; an overridden item gets
the known-item provenance and confidence at least 0.95; a matched item
within both thresholds keeps its macros and confidence; and one
consolidated signal listing the overridden identifiers (comma-joined,
de-duplicated) is appended exactly when something was overridden. -/
theorem claim_C1 (foods : List Food) (sigs : List JVal) :
    ((apply_known_overrides foods sigs).1 = foods.map (fun f => (overrideItem f).1)) ∧
    (∀ f km, match_known_food_by_name f.name = some km →
      ((f.calories = none ∨ f.protein_g = none ∨
          80 ≤ ((f.calories.getD 0) - km.calories).natAbs ∨
          10 ≤ ((f.protein_g.getD 0) - km.protein_g).natAbs) →
        (overrideItem f).1.calories = some km.calories ∧
        (overrideItem f).1.protein_g = some km.protein_g ∧
        (overrideItem f).1.source = some "known_food" ∧
        (overrideItem f).1.matched_known = some km.known_name ∧
        (19 : ℚ) / 20 ≤ (overrideItem f).1.confidence ∧
        (overrideItem f).2 = some km.known_name) ∧
      (¬ (f.calories = none ∨ f.protein_g = none ∨
          80 ≤ ((f.calories.getD 0) - km.calories).natAbs ∨
          10 ≤ ((f.protein_g.getD 0) - km.protein_g).natAbs) →
        (overrideItem f).1.calories = f.calories ∧
        (overrideItem f).1.protein_g = f.protein_g ∧
        (overrideItem f).1.confidence = f.confidence ∧
        (overrideItem f).1.matched_known = f.matched_known ∧
        (overrideItem f).2 = none)) ∧
    ((apply_known_overrides foods sigs).2 =
      (if (foods.filterMap (fun f => (overrideItem f).2)).isEmpty then sigs
       else sigs ++ [overrideSignal (foods.filterMap (fun f => (overrideItem f).2))])) ∧
    (∀ names, (sortedDedup names).Nodup ∧ ∀ a, a ∈ sortedDedup names ↔ a ∈ names) := by
  refine ⟨apply_known_overrides_fst foods sigs, ?_, apply_known_overrides_snd foods sigs,
    fun names => ⟨sortedDedup_nodup names, fun a => mem_sortedDedup a names⟩⟩
  intro f km hm
  constructor
  · intro hcond
    have hso : shouldOverride f km.calories km.protein_g = true :=
      (shouldOverride_iff f km).mpr hcond
    rw [overrideItem_pos hm hso]
    exact ⟨rfl, rfl, rfl, rfl, le_max_right _ _, rfl⟩
  · intro hcond
    have hso : shouldOverride f km.calories km.protein_g = false := by
      rcases Bool.eq_false_or_eq_true (shouldOverride f km.calories km.protein_g) with h | h
      · exact absurd ((shouldOverride_iff f km).mp h) hcond
      · exact h
    rw [overrideItem_neg_matched hm hso]
    exact ⟨rfl, rfl, rfl, rfl, rfl⟩

/-- Concrete food item used by the C1 witness. -/
def questFood : Food := ⟨"quest bar", "", some 500, some 21, 7 / 10, none, none⟩

theorem claim_C1_witness :
    match_known_food_by_name questFood.name = some ⟨190, 21, "quest_protein_bar"⟩ ∧
    (overrideItem questFood).1.calories = some 190 ∧
    (overrideItem questFood).1.protein_g = some 21 ∧
    (overrideItem questFood).1.source = some "known_food" ∧
    (19 : ℚ) / 20 ≤ (overrideItem questFood).1.confidence := by
  have hm : match_known_food_by_name questFood.name =
      some ⟨190, 21, "quest_protein_bar"⟩ := by decide
  have h := ((claim_C1 [questFood] []).2.1 questFood ⟨190, 21, "quest_protein_bar"⟩ hm).1
    (by right; right; left; decide)
  exact ⟨hm, h.1, h.2.1, h.2.2.1, h.2.2.2.2.1⟩

/-- C10: the override step preserves the food list's length and order,
never changes `name` or `quantity_text`, and leaves a non-matched item
unchanged except for defaulting an absent provenance to
`model_estimate`. -/
theorem claim_C10 (foods : List Food) (sigs : List JVal) :
    List.Forall₂ (fun f g => g.name = f.name ∧ g.quantity_text = f.quantity_text) foods
      (apply_known_overrides foods sigs).1 ∧
    (apply_known_overrides foods sigs).1.length = foods.length ∧
    (∀ f, match_known_food_by_name f.name = none →
      (overrideItem f).1 = { f with source := some (f.source.getD "model_estimate") }) := by
  have hfst := apply_known_overrides_fst foods sigs
  have hitem : ∀ f : Food, (overrideItem f).1.name = f.name ∧
      (overrideItem f).1.quantity_text = f.quantity_text := by
    intro f
    simp only [overrideItem]
    split
    · split
      · exact ⟨rfl, rfl⟩
      · exact ⟨rfl, rfl⟩
    · exact ⟨rfl, rfl⟩
  refine ⟨?_, ?_, ?_⟩
  · rw [hfst]
    rw [List.forall₂_map_right_iff]
    rw [List.forall₂_same]
    intro f _
    exact hitem f
  · rw [hfst, List.length_map]
  · intro f hm
    simp only [overrideItem, hm]

/-- Concrete non-matching food item used by the C10 witness. -/
def bananaFood : Food := ⟨"banana", "1", some 105, some 1, 7 / 10, none, none⟩

theorem claim_C10_witness :
    match_known_food_by_name bananaFood.name = none ∧
    (overrideItem bananaFood).1 =
      { bananaFood with source := some "model_estimate" } := by
  have hm : match_known_food_by_name bananaFood.name = none := by decide
  have h := (claim_C10 [bananaFood] []).2.2 bananaFood hm
  exact ⟨hm, h⟩


/-! Re-ask merge (C4). -/

/-- Concrete first-pass output for the C4 counterexample: one generator
signal and four distinct foods sharing one macro pair (tripping the
degeneracy check). -/
def c4raw1 : JObj :=
  [("signals", .jarr [.jobj [("key", .jstr "firstsig"), ("value", .jstr "v1")]]),
   ("foods", .jarr
     [.jobj [("name", .jstr "aa"), ("calories", .jint 100), ("protein_g", .jint 5)],
      .jobj [("name", .jstr "bb"), ("calories", .jint 100), ("protein_g", .jint 5)],
      .jobj [("name", .jstr "cc"), ("calories", .jint 100), ("protein_g", .jint 5)],
      .jobj [("name", .jstr "dd"), ("calories", .jint 100), ("protein_g", .jint 5)]])]

/-- The record produced by the C4 counterexample run: the first-pass
signal survives into the final signals, ahead of the re-ask signal. -/
def c4rec : Record :=
  { emptyRec with
    date := some "2024-02-02"
    signals := [⟨"firstsig", "v1", some "", "journal", 7 / 10⟩,
                ⟨"sanity_rerun", "Re-asked GPT due to uniform macros across foods.",
                  some "", "code", 9 / 10⟩] }

theorem claim_C4_cex :
    extract "hello" "2024-02-02" c4raw1 [] = ⟨some c4rec, 2⟩ ∧
    c4rec.signals.head? = some ⟨"firstsig", "v1", some "", "journal", 7 / 10⟩ := by
  constructor
  · decide
  · rfl

/-- C4 (amended): after a re-ask, each non-nutrition scalar key holds the
second pass's value when the second pass's mapping has the key, else the
first pass's value (or null); the second pass's foods fully replace the
first pass's; and the signal stream is the first pass's signals followed
by the second pass's, with the re-ask signal appended (before any later
audit signals) — the first pass's signals are not discarded. -/
theorem claim_C4 (date : String) (r1 raw2 : JObj) (sigs1 : List JVal) :
    (∀ k, k ∈ scalarKeys →
      jget (backfillScalars r1 (jset raw2 "date" (.jstr date))) k =
        some ((jget raw2 k).getD (getOr r1 k .jnull))) ∧
    ((reaskPass date r1 sigs1 raw2).2.1 =
      (apply_known_overrides (normalize_foods (getOr raw2 "foods" .jnull))
        (sigs1 ++ normSignalsField (jget raw2 "signals") ++ [sanityRerunSignal])).1) ∧
    (∃ tail, (reaskPass date r1 sigs1 raw2).2.2 =
      sigs1 ++ normSignalsField (jget raw2 "signals") ++ [sanityRerunSignal] ++ tail) := by
  refine ⟨?_, ?_, ?_⟩
  · intro k hk
    have hkd : k ≠ "date" := by
      simp only [scalarKeys, List.mem_cons, List.not_mem_nil, or_false] at hk
      rcases hk with rfl | rfl | rfl | rfl | rfl | rfl | rfl | rfl | rfl | rfl | rfl | rfl |
        rfl | rfl <;> decide
    rw [jget_backfill_mem _ _ _ hk, jget_jset_ne _ _ _ _ hkd]
  · simp only [reaskPass, getOr_eq]
    rw [jget_backfill_notmem _ _ _ (by decide), jget_jset_ne _ _ _ _ (by decide)]
  · simp only [reaskPass]
    rw [apply_known_overrides_snd]
    split
    · exact ⟨[], by simp⟩
    · refine ⟨[overrideSignal (List.filterMap (fun f => (overrideItem f).2)
        (normalize_foods (getOr (backfillScalars r1 (jset raw2 "date" (.jstr date))) "foods"
          .jnull)))], ?_⟩
      simp [List.append_assoc]

theorem claim_C4_witness :
    jget (backfillScalars [("gym", .jbool true)] (jset [] "date" (.jstr "2024-02-02"))) "gym" =
      some (.jbool true) := by
  have h := (claim_C4 "2024-02-02" [("gym", .jbool true)] [] []).1 "gym" (by decide)
  rw [h]
  rfl


/-! One generation round (C6). -/

theorem gptAttempts_eq :
    gptAttempts = [("gpt-4.1-mini", true), ("gpt-4.1-mini", false),
      ("gpt-4o-mini", true), ("gpt-4o-mini", false)] := rfl

theorem call_gpt_go_nil (gen : String → Bool → Except String String)
    (loads : String → Except String JVal) (last : Option String) :
    call_gpt_go gen loads [] last = .error (exhaustedMsg last) := rfl

theorem call_gpt_go_cons (gen : String → Bool → Except String String)
    (loads : String → Except String JVal) (a : String × Bool) (rest : List (String × Bool))
    (last : Option String) :
    call_gpt_go gen loads (a :: rest) last =
      (match attemptOutcome gen loads a with
       | .ok o => .ok o
       | .error e => call_gpt_go gen loads rest (some e)) := rfl

theorem call_gpt_char (gen : String → Bool → Except String String)
    (loads : String → Except String JVal) :
    call_gpt gen loads =
      (match attemptOutcome gen loads ("gpt-4.1-mini", true) with
       | .ok o => .ok o
       | .error _ =>
         match attemptOutcome gen loads ("gpt-4.1-mini", false) with
         | .ok o => .ok o
         | .error _ =>
           match attemptOutcome gen loads ("gpt-4o-mini", true) with
           | .ok o => .ok o
           | .error _ =>
             match attemptOutcome gen loads ("gpt-4o-mini", false) with
             | .ok o => .ok o
             | .error e4 => .error (exhaustedMsg (some e4))) := by
  show call_gpt_go gen loads gptAttempts none = _
  rw [gptAttempts_eq]
  cases h1 : attemptOutcome gen loads ("gpt-4.1-mini", true) with
  | ok o => simp only [call_gpt_go_cons, h1]
  | error e1 =>
    cases h2 : attemptOutcome gen loads ("gpt-4.1-mini", false) with
    | ok o => simp only [call_gpt_go_cons, h1, h2]
    | error e2 =>
      cases h3 : attemptOutcome gen loads ("gpt-4o-mini", true) with
      | ok o => simp only [call_gpt_go_cons, h1, h2, h3]
      | error e3 =>
        cases h4 : attemptOutcome gen loads ("gpt-4o-mini", false) with
        | ok o => simp only [call_gpt_go_cons, h1, h2, h3, h4]
        | error e4 => simp only [call_gpt_go_cons, call_gpt_go_nil, h1, h2, h3, h4]

theorem parse_json_object_slice_path (loads : String → Except String JVal) (text : String)
    (hne : strTrim text ≠ "") (hnotdict : ∀ o', loads (strTrim text) ≠ .ok (.jobj o')) :
    parse_json_object loads text =
      (match braceSlice (strTrim text) with
       | some slice =>
         match loads slice with
         | .ok (.jobj o) => .ok o
         | .ok _ => .error "Model did not return a valid JSON object."
         | .error e => .error e
       | none => .error "Model did not return a valid JSON object.") := by
  simp only [parse_json_object, if_neg hne]

/-- C6: one generation round tries the four (backend, decode-mode)
attempts in order and returns the first decoded object; if and only if all
attempts fail it raises the terminal error carrying the last underlying
error; and decoding falls back from the strict whole-payload parse to the
slice from the first opening brace to the last closing brace, failing the
attempt when no such slice parses. -/
theorem claim_C6 :
    (∀ (gen : String → Bool → Except String String) (loads : String → Except String JVal),
      (∀ o, attemptOutcome gen loads ("gpt-4.1-mini", true) = .ok o →
        call_gpt gen loads = .ok o) ∧
      (∀ e1 o, attemptOutcome gen loads ("gpt-4.1-mini", true) = .error e1 →
        attemptOutcome gen loads ("gpt-4.1-mini", false) = .ok o →
        call_gpt gen loads = .ok o) ∧
      (∀ e1 e2 o, attemptOutcome gen loads ("gpt-4.1-mini", true) = .error e1 →
        attemptOutcome gen loads ("gpt-4.1-mini", false) = .error e2 →
        attemptOutcome gen loads ("gpt-4o-mini", true) = .ok o →
        call_gpt gen loads = .ok o) ∧
      (∀ e1 e2 e3 o, attemptOutcome gen loads ("gpt-4.1-mini", true) = .error e1 →
        attemptOutcome gen loads ("gpt-4.1-mini", false) = .error e2 →
        attemptOutcome gen loads ("gpt-4o-mini", true) = .error e3 →
        attemptOutcome gen loads ("gpt-4o-mini", false) = .ok o →
        call_gpt gen loads = .ok o) ∧
      (∀ e1 e2 e3 e4, attemptOutcome gen loads ("gpt-4.1-mini", true) = .error e1 →
        attemptOutcome gen loads ("gpt-4.1-mini", false) = .error e2 →
        attemptOutcome gen loads ("gpt-4o-mini", true) = .error e3 →
        attemptOutcome gen loads ("gpt-4o-mini", false) = .error e4 →
        call_gpt gen loads = .error (exhaustedMsg (some e4))) ∧
      ((∃ e, call_gpt gen loads = .error e) ↔
        ∀ a ∈ gptAttempts, ∃ e, attemptOutcome gen loads a = .error e)) ∧
    (∀ (loads : String → Except String JVal) (text : String),
      (∀ o, strTrim text ≠ "" → loads (strTrim text) = .ok (.jobj o) →
        parse_json_object loads text = .ok o) ∧
      (∀ sl o, (∀ o', loads (strTrim text) ≠ .ok (.jobj o')) →
        braceSlice (strTrim text) = some sl → loads sl = .ok (.jobj o) →
        parse_json_object loads text = .ok o) ∧
      ((∀ o', loads (strTrim text) ≠ .ok (.jobj o')) →
        (∀ sl o', ¬(braceSlice (strTrim text) = some sl ∧ loads sl = .ok (.jobj o'))) →
        ∃ e, parse_json_object loads text = .error e)) := by
  constructor
  · intro gen loads
    refine ⟨?_, ?_, ?_, ?_, ?_, ?_⟩
    · intro o h1
      rw [call_gpt_char, h1]
    · intro e1 o h1 h2
      rw [call_gpt_char, h1, h2]
    · intro e1 e2 o h1 h2 h3
      rw [call_gpt_char, h1, h2, h3]
    · intro e1 e2 e3 o h1 h2 h3 h4
      rw [call_gpt_char, h1, h2, h3, h4]
    · intro e1 e2 e3 e4 h1 h2 h3 h4
      rw [call_gpt_char, h1, h2, h3, h4]
    · constructor
      · rintro ⟨e, he⟩ a ha
        rw [call_gpt_char] at he
        cases h1 : attemptOutcome gen loads ("gpt-4.1-mini", true) <;> rw [h1] at he
        case ok o => cases he
        cases h2 : attemptOutcome gen loads ("gpt-4.1-mini", false) <;> rw [h2] at he
        case ok o => cases he
        cases h3 : attemptOutcome gen loads ("gpt-4o-mini", true) <;> rw [h3] at he
        case ok o => cases he
        cases h4 : attemptOutcome gen loads ("gpt-4o-mini", false) <;> rw [h4] at he
        case ok o => cases he
        rw [gptAttempts_eq] at ha
        rcases List.mem_cons.mp ha with rfl | ha
        · exact ⟨_, h1⟩
        rcases List.mem_cons.mp ha with rfl | ha
        · exact ⟨_, h2⟩
        rcases List.mem_cons.mp ha with rfl | ha
        · exact ⟨_, h3⟩
        rcases List.mem_cons.mp ha with rfl | ha
        · exact ⟨_, h4⟩
        cases ha
      · intro hall
        obtain ⟨e1, h1⟩ := hall ("gpt-4.1-mini", true) (by rw [gptAttempts_eq]; simp)
        obtain ⟨e2, h2⟩ := hall ("gpt-4.1-mini", false) (by rw [gptAttempts_eq]; simp)
        obtain ⟨e3, h3⟩ := hall ("gpt-4o-mini", true) (by rw [gptAttempts_eq]; simp)
        obtain ⟨e4, h4⟩ := hall ("gpt-4o-mini", false) (by rw [gptAttempts_eq]; simp)
        exact ⟨_, by rw [call_gpt_char, h1, h2, h3, h4]⟩
  · intro loads text
    refine ⟨?_, ?_, ?_⟩
    · intro o hne hl
      simp only [parse_json_object]
      rw [if_neg hne, hl]
    · intro sl o hnot hsl hok
      have hne : strTrim text ≠ "" := by
        intro h0
        rw [h0] at hsl
        cases hsl
      rw [parse_json_object_slice_path loads text hne hnot]
      simp only [hsl, hok]
    · intro hnot hnsl
      by_cases hne : strTrim text = ""
      · exact ⟨"Model returned empty content.", by simp only [parse_json_object, if_pos hne]⟩
      · rw [parse_json_object_slice_path loads text hne hnot]
        cases hbs : braceSlice (strTrim text) with
        | none => exact ⟨_, rfl⟩
        | some sl =>
          cases hload2 : loads sl with
          | error e => exact ⟨e, by simp only [hload2]⟩
          | ok v =>
            cases v with
            | jobj o' => exact absurd ⟨hbs, hload2⟩ (hnsl sl o')
            | jnull => exact ⟨"Model did not return a valid JSON object.", by simp only [hload2]⟩
            | jbool b => exact ⟨"Model did not return a valid JSON object.", by simp only [hload2]⟩
            | jint n => exact ⟨"Model did not return a valid JSON object.", by simp only [hload2]⟩
            | jfloat q => exact ⟨"Model did not return a valid JSON object.", by simp only [hload2]⟩
            | jstr s => exact ⟨"Model did not return a valid JSON object.", by simp only [hload2]⟩
            | jarr xs => exact ⟨"Model did not return a valid JSON object.", by simp only [hload2]⟩

theorem claim_C6_witness :
    call_gpt (fun _ _ => .error "boom") (fun _ => .error "bad") =
      .error ("OpenAI extraction request failed after retries. Last error: boom") :=
  ((claim_C6.1 (fun _ _ => .error "boom") (fun _ => .error "bad")).2.2.2.2.1
    "boom" "boom" "boom" "boom" rfl rfl rfl rfl)


/-! Interview batch handling (C7) and answer parsing (C8). -/

/-- The labeled error the Confirm & Save loop records for one raw answer,
if any: `None` and blank answers are skipped, parses that succeed produce
no error. -/
def answerError (fv : String × Option String) : Option String :=
  match fv.2 with
  | none => none
  | some v =>
    if strTrim v = "" then none
    else
      match parse_value fv.1 (strTrim v) with
      | .ok _ => none
      | .error e => some (fv.1 ++ ": " ++ e)

theorem processAnswers_snd_aux (l : List (String × Option String)) :
    ∀ acc : PDict × List String,
      (l.foldl
        (fun acc fv =>
          match fv.2 with
          | none => acc
          | some v =>
            let vs := strTrim v
            if vs = "" then acc
            else
              match parse_value fv.1 vs with
              | .ok pv => (acc.1 ++ [(fv.1, pv)], acc.2)
              | .error e => (acc.1, acc.2 ++ [fv.1 ++ ": " ++ e])) acc).2 =
      acc.2 ++ l.filterMap answerError := by
  induction l with
  | nil => intro acc; simp
  | cons fv t ih =>
    intro acc
    rw [List.foldl_cons, List.filterMap_cons]
    cases hv : fv.2 with
    | none => simp only [answerError, hv, ih]
    | some v =>
      by_cases hb : strTrim v = ""
      · simp only [answerError, hv, hb, if_pos rfl, ih]
        simp [hb]
      · cases hp : parse_value fv.1 (strTrim v) with
        | ok pv =>
          simp only [answerError, hv, hb, if_neg hb, hp, ih]
          simp [hb, hp]
        | error e =>
          simp only [answerError, hv, hb, if_neg hb, hp, ih]
          simp [hb, hp, List.append_assoc]

theorem processAnswers_snd (l : List (String × Option String)) :
    (processAnswers l).2 = l.filterMap answerError :=
  processAnswers_snd_aux l ([], [])

theorem length_filterMap_eq_countP {α β : Type} (f : α → Option β) (l : List α) :
    (l.filterMap f).length = l.countP (fun x => (f x).isSome) := by
  induction l with
  | nil => rfl
  | cons a t ih =>
    rw [List.filterMap_cons, List.countP_cons]
    cases hf : f a with
    | none => simp [hf, ih]
    | some b => simp [hf, ih]

/-- C7: if any non-blank submitted answer fails its field-type parse, the
whole Confirm & Save batch is rejected with the in-order list of labeled
errors, one per failing answer, and no answer is merged: the handler never
produces an updated data mapping. -/
theorem claim_C7 (answersRaw : List (String × Option String)) (data : PDict)
    (h : ∃ fv ∈ answersRaw, answerError fv ≠ none) :
    confirmSave answersRaw data = .error (answersRaw.filterMap answerError) ∧
    (answersRaw.filterMap answerError).length =
      answersRaw.countP (fun fv => (answerError fv).isSome) ∧
    ∀ d, confirmSave answersRaw data ≠ .ok d := by
  obtain ⟨fv, hmem, hfail⟩ := h
  have herr : (processAnswers answersRaw).2 = answersRaw.filterMap answerError :=
    processAnswers_snd answersRaw
  have hne : (answersRaw.filterMap answerError) ≠ [] := by
    intro h0
    rcases ho : answerError fv with _ | e
    · exact hfail ho
    · have : (answerError fv).isSome := by rw [ho]; rfl
      have hmem2 : e ∈ answersRaw.filterMap answerError :=
        List.mem_filterMap.mpr ⟨fv, hmem, ho⟩
      rw [h0] at hmem2
      cases hmem2
  have hkey : confirmSave answersRaw data = .error (answersRaw.filterMap answerError) := by
    simp only [confirmSave, herr]
    rw [if_neg (by simpa [List.isEmpty_iff] using hne)]
  refine ⟨hkey, length_filterMap_eq_countP _ _, ?_⟩
  intro d hd
  rw [hkey] at hd
  cases hd

theorem claim_C7_witness :
    confirmSave [("sleep_hours", some "abc"), ("gym", some "yes")] [] =
      .error ["sleep_hours: could not convert string to float: 'abc'"] ∧
    ∀ d, confirmSave [("sleep_hours", some "abc"), ("gym", some "yes")] [] ≠ .ok d := by
  have h := claim_C7 [("sleep_hours", some "abc"), ("gym", some "yes")] [] (by decide)
  refine ⟨?_, h.2.2⟩
  rw [h.1]
  rfl

/-- C8 counterexample: the int-typed 1-10 field accepts the fractional
numeric string "7.9", silently truncating it to 7 — so the parser does
accept a raw answer that does not denote an integer value. -/
theorem claim_C8_cex :
    parse_value "sleep_quality_1_10" "7.9" = .ok (.pint 7) ∧
    pyFloatOfString "7.9" = some (79 / 10) ∧
    ¬ ∃ n : ℤ, ((79 : ℚ) / 10) = (n : ℚ) := by
  refine ⟨rfl, by decide, ?_⟩
  rintro ⟨n, hn⟩
  have h10 : ((79 : ℚ) / 10).den = 10 := by decide
  rw [hn, Rat.den_intCast] at h10
  cases h10

/-- Evaluation of `parse_value` on an `int_1_10` field. -/
theorem parse_value_int_1_10 (field raw : String) (hft : fieldTypeOf field = "int_1_10") :
    parse_value field raw =
      (match pyFloatOfString (strTrim raw) with
       | none => .error (floatConvErr (strTrim raw))
       | some q =>
         if 1 ≤ pyTrunc q ∧ pyTrunc q ≤ 10 then .ok (.pint (pyTrunc q))
         else .error "Must be between 1 and 10.") := by
  simp only [parse_value, hft]
  rw [if_neg (by decide), if_neg (by decide), if_true]

/-- Evaluation of `parse_value` on an `int_nonneg` field. -/
theorem parse_value_int_nonneg (field raw : String) (hft : fieldTypeOf field = "int_nonneg") :
    parse_value field raw =
      (match pyFloatOfString (strTrim raw) with
       | none => .error (floatConvErr (strTrim raw))
       | some q =>
         if 0 ≤ pyTrunc q then .ok (.pint (pyTrunc q))
         else .error "Must be >= 0.") := by
  simp only [parse_value, hft]
  rw [if_neg (by decide), if_neg (by decide), if_neg (by decide), if_true]

/-- C8 (amended): the integer-typed interview fields parse the raw text
with Python float conversion and then truncate toward zero — a fractional
numeric string is silently truncated to an integer — and the range check
applies to the truncated value: an out-of-range 1-10 value is rejected
with an error, never clamped. -/
theorem claim_C8 (field raw : String) :
    (fieldTypeOf field = "int_1_10" →
      ∀ v, parse_value field raw = .ok v ↔
        ∃ q, pyFloatOfString (strTrim raw) = some q ∧ v = .pint (pyTrunc q) ∧
          1 ≤ pyTrunc q ∧ pyTrunc q ≤ 10) ∧
    (fieldTypeOf field = "int_nonneg" →
      ∀ v, parse_value field raw = .ok v ↔
        ∃ q, pyFloatOfString (strTrim raw) = some q ∧ v = .pint (pyTrunc q) ∧
          0 ≤ pyTrunc q) := by
  constructor
  · intro hft v
    rw [parse_value_int_1_10 field raw hft]
    cases hq : pyFloatOfString (strTrim raw) with
    | none =>
      constructor
      · intro h; cases h
      · rintro ⟨q, hq2, -⟩; cases hq2
    | some q =>
      show (if 1 ≤ pyTrunc q ∧ pyTrunc q ≤ 10 then Except.ok (PVal.pint (pyTrunc q))
        else Except.error "Must be between 1 and 10.") = Except.ok v ↔ _
      by_cases hrange : 1 ≤ pyTrunc q ∧ pyTrunc q ≤ 10
      · rw [if_pos hrange]
        constructor
        · intro h
          injection h with h2
          exact ⟨q, rfl, h2.symm, hrange.1, hrange.2⟩
        · rintro ⟨q', hq2, hv, -, -⟩
          injection hq2 with hq2
          subst hq2
          rw [hv]
      · rw [if_neg hrange]
        constructor
        · intro h; cases h
        · rintro ⟨q', hq2, hv, h1, h2⟩
          injection hq2 with hq2
          subst hq2
          exact absurd ⟨h1, h2⟩ hrange
  · intro hft v
    rw [parse_value_int_nonneg field raw hft]
    cases hq : pyFloatOfString (strTrim raw) with
    | none =>
      constructor
      · intro h; cases h
      · rintro ⟨q, hq2, -⟩; cases hq2
    | some q =>
      show (if 0 ≤ pyTrunc q then Except.ok (PVal.pint (pyTrunc q))
        else Except.error "Must be >= 0.") = Except.ok v ↔ _
      by_cases hrange : 0 ≤ pyTrunc q
      · rw [if_pos hrange]
        constructor
        · intro h
          injection h with h2
          exact ⟨q, rfl, h2.symm, hrange⟩
        · rintro ⟨q', hq2, hv, -⟩
          injection hq2 with hq2
          subst hq2
          rw [hv]
      · rw [if_neg hrange]
        constructor
        · intro h; cases h
        · rintro ⟨q', hq2, hv, h1⟩
          injection hq2 with hq2
          subst hq2
          exact absurd h1 hrange

theorem claim_C8_witness :
    (fieldTypeOf "sleep_quality_1_10" = "int_1_10") ∧
    parse_value "sleep_quality_1_10" "7.9" = .ok (.pint (pyTrunc (79 / 10))) := by
  refine ⟨rfl, ?_⟩
  exact ((claim_C8 "sleep_quality_1_10" "7.9").1 rfl (.pint (pyTrunc (79 / 10)))).mpr
    ⟨79 / 10, by decide, rfl, by decide, by decide⟩

end J2D
